import Mathlib

/-!
# Whack-a-Mole controller (`src/main.c`): shallow embedding and verified properties

The globals of `main.c` become the fields of `State`; every function of the file
becomes a Lean function on that state.  What the program reads from the outside
(`HAL_GetTick`, `HAL_GPIO_ReadPin`, `rand`) is passed in explicitly.

* `uint32_t` ticks are natural numbers (below `2^32` when they come from
  `HAL_GetTick`); `now - last` is `sub32`, subtraction modulo `2^32`.
* `int` values are `Int`.  `score++` is not wrapped: signed overflow is undefined
  in C and needs more than `2^31` hits within one game of at most 180 s.
* An array `T a[n]` is a function `Fin n → T`; an access with an index outside
  `0..n-1` is the fault `Fault.outOfBounds`.
* The transcript sent through `uartPrint` is the list `State.uart`, one entry
  per call.
-/

namespace WhackAMole

/-! ## Hardware values -/

/-- Level of a digital pin, as read by `HAL_GPIO_ReadPin` and written by
`HAL_GPIO_WritePin`. -/
inductive GPIO_PinState where
  | GPIO_PIN_RESET
  | GPIO_PIN_SET
  deriving DecidableEq, Repr

open GPIO_PinState

/-- Unsigned 32-bit subtraction `a - b` of two `uint32_t` values. -/
def sub32 (a b : Nat) : Nat :=
  (a % 4294967296 + 4294967296 - b % 4294967296) % 4294967296

/-- Level struct: mole interval and level duration, both in ms. -/
structure Level where
  interval : Nat
  duration : Nat
  deriving DecidableEq, Repr

/-- Table `levels[3]`; `none` is an index outside the table. -/
def levels (i : Int) : Option Level :=
  if i = 0 then some ⟨5000, 60000⟩
  else if i = 1 then some ⟨3000, 60000⟩
  else if i = 2 then some ⟨1000, 60000⟩
  else none

/-- Software debounce window, `#define DEBOUNCE_MS 50`. -/
def DEBOUNCE_MS : Nat := 50

/-! ## Program state -/

/-- Globals of `main.c`, the two locals of `main` that live across loop
iterations (`currentMoles`, `moleCount`), the LED output pins and the UART
transcript. -/
structure State where
  gameStarted : Int
  score : Int
  lastTick : Nat
  currentLevel : Int
  levelStartTick : Nat
  moleLEDs : Fin 4 → Int
  lastPressTime : Fin 4 → Nat
  lastStopTime : Nat
  currentMoles : Fin 3 → Int
  moleCount : Int
  ledOut : Fin 4 → GPIO_PinState
  uart : List String

/-- Ways one pass of the model fails to produce a next state: `outOfBounds` is an
array access outside the array, `blocked` is a loop whose exit depends on values
read from outside (`rand`, the pins) that has not exited on the values supplied. -/
inductive Fault where
  | outOfBounds
  | blocked
  deriving DecidableEq, Repr

/-- Values read during one call of `stopPressed`: the tick and the stop pin. -/
structure StopPoll where
  now : Nat
  pin : GPIO_PinState

/-- Values read during one call of `getPressedButton`: the tick and the four
button pins. -/
structure BtnPoll where
  now : Nat
  pins : Fin 4 → GPIO_PinState

/-- Debounce test of button `i` in `getPressedButton`: the pin is low and
`now - lastPressTime[i] > DEBOUNCE_MS`. -/
def btnAccepted (p : BtnPoll) (lastPressTime : Fin 4 → Nat) (i : Fin 4) : Bool :=
  p.pins i == GPIO_PIN_RESET && decide (sub32 p.now (lastPressTime i) > DEBOUNCE_MS)

/-- Body of the `for` loop of `getPressedButton` for one index `i`. -/
def getPressedButtonBody (p : BtnPoll) (acc : Int × (Fin 4 → Nat)) (i : Fin 4) :
    Int × (Fin 4 → Nat) :=
  if p.pins i = GPIO_PIN_RESET then
    if sub32 p.now (acc.2 i) > DEBOUNCE_MS then
      ((i.val : Int), Function.update acc.2 i p.now)
    else acc
  else acc

/-- Debounced active-low buttons: `getPressedButton`.  Returns `idx` and the
updated `lastPressTime`. -/
def getPressedButton (p : BtnPoll) (lastPressTime : Fin 4 → Nat) : Int × (Fin 4 → Nat) :=
  (List.finRange 4).foldl (getPressedButtonBody p) (-1, lastPressTime)

/-- Debounced stop button: `stopPressed`.  Returns the result and the updated
`lastStopTime`. -/
def stopPressed (p : StopPoll) (lastStopTime : Nat) : Int × Nat :=
  if p.pin = GPIO_PIN_SET then
    if sub32 p.now lastStopTime > DEBOUNCE_MS then (1, p.now)
    else (0, lastStopTime)
  else (0, lastStopTime)

/-! ## LEDs and transcript -/

/-- Send one message: `uartPrint`. -/
def uartPrint (msg : String) (s : State) : State :=
  { s with uart := s.uart ++ [msg] }

/-- Body of the loop of `clearLEDs` for one index. -/
def clearLEDsBody (s : State) (i : Fin 4) : State :=
  { s with ledOut := Function.update s.ledOut i GPIO_PIN_RESET,
           moleLEDs := Function.update s.moleLEDs i 0 }

/-- Switch every LED off and reset every flag: `clearLEDs`. -/
def clearLEDs (s : State) : State :=
  (List.finRange 4).foldl clearLEDsBody s

/-- An `int` used as index into an array of 4 elements. -/
def index4 (x : Int) : Option (Fin 4) :=
  if h : 0 ≤ x ∧ x < 4 then some ⟨x.toNat, by omega⟩ else none

/-- The `for` loop of `showMoleSet`: `n` iterations are left, the next index
is `i`. -/
def showMoleSetLoop (leds : Fin 3 → Int) : Nat → Nat → State → Except Fault State
  | 0, _, s => .ok s
  | n + 1, i, s =>
    if h : i < 3 then
      match index4 (leds ⟨i, h⟩) with
      | none => .error .outOfBounds
      | some l =>
        showMoleSetLoop leds n (i + 1)
          (uartPrint (" " ++ toString (leds ⟨i, h⟩ + 1))
            { s with ledOut := Function.update s.ledOut l GPIO_PIN_SET,
                     moleLEDs := Function.update s.moleLEDs l 1 })
    else .error .outOfBounds

/-- Light the chosen LEDs and report them: `showMoleSet`. -/
def showMoleSet (leds : Fin 3 → Int) (count : Int) (s : State) : Except Fault State :=
  match showMoleSetLoop leds count.toNat 0
      (uartPrint "\r\nMole popped on LED(s):" (clearLEDs s)) with
  | .error e => .error e
  | .ok s1 => .ok (uartPrint "\r\n" s1)

/-- Banner of the Idle state: `showStartPage`. -/
def showStartPage (s : State) : State :=
  uartPrint "Press any play button to start!\r\n"
    (uartPrint "==== Whack-a-Mole Game ====\r\n" s)

/-! ## Mole selection -/

/-- The inner loop `for(j=0;j<i;j++) if(led==currentMoles[j]) duplicate=1;`. -/
def duplicate (currentMoles : Fin 3 → Int) (i : Nat) (led : Int) : Bool :=
  (List.finRange 3).foldl
    (fun d j => if j.val < i ∧ led = currentMoles j then true else d) false

/-- The `do ... while(1)` loop of the spawn block: draw `rand()%4` until the
value is no duplicate.  `none` when the supplied values run out first. -/
def drawLed (currentMoles : Fin 3 → Int) (i : Nat) : List Nat → Option (Int × List Nat)
  | [] => none
  | r :: rs =>
    if duplicate currentMoles i ((r % 4 : Nat) : Int) then drawLed currentMoles i rs
    else some (((r % 4 : Nat) : Int), rs)

/-- The loop `for(int i=0;i<moleCount;i++)` of the spawn block: `n` iterations
are left, the next index is `i`. -/
def chooseLoop : Nat → Nat → (Fin 3 → Int) → List Nat →
    Except Fault ((Fin 3 → Int) × List Nat)
  | 0, _, currentMoles, rs => .ok (currentMoles, rs)
  | n + 1, i, currentMoles, rs =>
    if h : i < 3 then
      match drawLed currentMoles i rs with
      | none => .error .blocked
      | some (led, rs1) => chooseLoop n (i + 1) (Function.update currentMoles ⟨i, h⟩ led) rs1
    else .error .outOfBounds

/-- Lines 173-183: `moleCount = 1 + rand()%3` and the filling of
`currentMoles[0..moleCount)`.  Returns `moleCount`, the array and the unused
rest of the `rand()` values. -/
def chooseMoles (currentMoles : Fin 3 → Int) :
    List Nat → Except Fault (Int × (Fin 3 → Int) × List Nat)
  | [] => .error .blocked
  | r :: rs =>
    match chooseLoop (1 + ((r % 3 : Nat) : Int)).toNat 0 currentMoles rs with
    | .error e => .error e
    | .ok (cm, rs1) => .ok (1 + ((r % 3 : Nat) : Int), cm, rs1)

/-! ## The blocks of the main loop -/

/-- One evaluation of the condition of the Idle wait loop: the values read by
`getPressedButton()` and, when that returned -1, by `stopPressed()`. -/
structure WaitRound where
  btn : BtnPoll
  stop : StopPoll

/-- Values read from outside during one pass of `while(1)`: the tick sampled
at the top, the stop poll of line 127, the rounds of the Idle wait loop, the
`rand()` values, and the button poll of line 189.  A pass uses the parts its
path reaches. -/
structure LoopInput where
  now : Nat
  stop : StopPoll
  wait : List WaitRound
  rands : List Nat
  btn : BtnPoll

/-- What ended the Idle wait loop (not stored by the program). -/
inductive WaitExit where
  | playButton (idx : Int)
  | stopButton
  deriving DecidableEq, Repr

/-- The loop `while(getPressedButton()==-1 && !stopPressed());` of line 139.
Returns what ended it and the two debounce timestamps; `none` when the loop has
not ended on the rounds supplied. -/
def idleWait : List WaitRound → (Fin 4 → Nat) → Nat →
    Option (WaitExit × (Fin 4 → Nat) × Nat)
  | [], _, _ => none
  | r :: rs, lastPressTime, lastStopTime =>
    if (getPressedButton r.btn lastPressTime).1 ≠ -1 then
      some (.playButton (getPressedButton r.btn lastPressTime).1,
            (getPressedButton r.btn lastPressTime).2, lastStopTime)
    else if (stopPressed r.stop lastStopTime).1 ≠ 0 then
      some (.stopButton, (getPressedButton r.btn lastPressTime).2,
            (stopPressed r.stop lastStopTime).2)
    else
      idleWait rs (getPressedButton r.btn lastPressTime).2
        (stopPressed r.stop lastStopTime).2

/-- Lines 128-134: the body of the stop branch. -/
def stopBlock (s : State) : State :=
  let s1 := clearLEDs { s with gameStarted := 0 }
  let s2 := uartPrint ("\r\nGame Stopped! Total Score=" ++ toString s.score ++ "\r\n") s1
  showStartPage { s2 with score := 0 }

/-- Lines 139-146: the body of the start branch. -/
def startBlock (now : Nat) (wait : List WaitRound) (s : State) : Except Fault State :=
  match idleWait wait s.lastPressTime s.lastStopTime with
  | none => .error .blocked
  | some (_, lastPressTime, lastStopTime) =>
    .ok (uartPrint "Game Started! Level 1\n"
      { s with lastPressTime := lastPressTime, lastStopTime := lastStopTime,
               score := 0, gameStarted := 1, currentLevel := 0,
               levelStartTick := now, lastTick := now })

/-- Lines 153-158: the game-finished branch of the level progression. -/
def finishBlock (s : State) : State :=
  let s1 := clearLEDs { s with gameStarted := 0 }
  let s2 := uartPrint ("\r\nGame Finished! Total Score=" ++ toString s.score ++ "\r\n") s1
  showStartPage { s2 with score := 0 }

/-- Lines 161-164: the next-level branch of the level progression;
`currentLevel` is already incremented. -/
def nextLevelBlock (now : Nat) (s : State) : State :=
  uartPrint ("\r\nStarting Level " ++ toString (s.currentLevel + 1) ++ "!\r\n")
    { s with levelStartTick := now, lastTick := now }

/-- Lines 169-170: `anyActive`. -/
def anyActive (s : State) : Int :=
  (List.finRange 4).foldl (fun a i => if s.moleLEDs i ≠ 0 then 1 else a) 0

/-- Lines 173-185: the body of the spawn `if`. -/
def spawnBody (now : Nat) (rands : List Nat) (s : State) : Except Fault State :=
  match chooseMoles s.currentMoles rands with
  | .error e => .error e
  | .ok (moleCount, currentMoles, _) =>
    match showMoleSet currentMoles moleCount
        { s with moleCount := moleCount, currentMoles := currentMoles } with
    | .error e => .error e
    | .ok s1 => .ok { s1 with lastTick := now }

/-- Lines 169-186: generate new moles if the interval passed or all are hit. -/
def spawnBlock (now : Nat) (rands : List Nat) (s : State) : Except Fault State :=
  if anyActive s = 0 then spawnBody now rands s
  else
    match levels s.currentLevel with
    | none => .error .outOfBounds
    | some lv =>
      if sub32 now s.lastTick ≥ lv.interval then spawnBody now rands s
      else .ok s

/-- Lines 198-205: the text listing the LEDs still active. -/
def remaining (s : State) : String :=
  (List.finRange 4).foldl
    (fun acc i => if s.moleLEDs i ≠ 0 then acc ++ (" " ++ toString ((i.val : Int) + 1)) else acc)
    ""

/-- Lines 216-217: `allCleared`. -/
def allCleared (s : State) : Int :=
  (List.finRange 4).foldl (fun a i => if s.moleLEDs i ≠ 0 then 0 else a) 1

/-- Lines 190-219: the body of `if(pressed != -1)`. -/
def pressedBody (pressed : Int) (s : State) : Except Fault State :=
  match index4 pressed with
  | none => .error .outOfBounds
  | some p =>
    let s1 :=
      if s.moleLEDs p ≠ 0 then
        let h := { s with ledOut := Function.update s.ledOut p GPIO_PIN_RESET,
                          moleLEDs := Function.update s.moleLEDs p 0,
                          score := s.score + 1 }
        uartPrint ("✅ Hit LED " ++ toString (pressed + 1) ++ "! Score=" ++ toString h.score
            ++ " | Remaining LEDs:" ++ (if remaining h ≠ "" then remaining h else " None")
            ++ "\r\n") h
      else
        uartPrint ("❌ Miss! Pressed " ++ toString (pressed + 1) ++ "\r\n") s
    .ok (if allCleared s1 ≠ 0 then { s1 with lastTick := 0 } else s1)

/-- Lines 189-219: poll the play buttons and handle an accepted press. -/
def buttonBlock (btn : BtnPoll) (s : State) : Except Fault State :=
  if (getPressedButton btn s.lastPressTime).1 ≠ -1 then
    pressedBody (getPressedButton btn s.lastPressTime).1
      { s with lastPressTime := (getPressedButton btn s.lastPressTime).2 }
  else .ok { s with lastPressTime := (getPressedButton btn s.lastPressTime).2 }

/-- Lines 169-219: the spawn block followed by the button block. -/
def spawnAndPress (inp : LoopInput) (s : State) : Except Fault State :=
  match spawnBlock inp.now inp.rands s with
  | .error e => .error e
  | .ok s1 => buttonBlock inp.btn s1

/-- Lines 150-166: level progression.  The flag is true when the block ends
the pass (the `continue` of the game-finished branch). -/
def levelBlock (now : Nat) (s : State) : Except Fault (Bool × State) :=
  match levels s.currentLevel with
  | none => .error .outOfBounds
  | some lv =>
    if sub32 now s.levelStartTick ≥ lv.duration then
      if s.currentLevel + 1 ≥ 3 then
        .ok (true, finishBlock { s with currentLevel := s.currentLevel + 1 })
      else
        .ok (false, nextLevelBlock now { s with currentLevel := s.currentLevel + 1 })
    else .ok (false, s)

/-- Lines 150-219: level progression, then spawn and button handling. -/
def playBlock (inp : LoopInput) (s : State) : Except Fault State :=
  match levelBlock inp.now s with
  | .error e => .error e
  | .ok (true, s1) => .ok s1
  | .ok (false, s1) => spawnAndPress inp s1

/-- One pass of the `while(1)` loop of `main` (lines 124-219). -/
def mainLoop (inp : LoopInput) (s : State) : Except Fault State :=
  let s0 := { s with lastStopTime := (stopPressed inp.stop s.lastStopTime).2 }
  if (stopPressed inp.stop s.lastStopTime).1 ≠ 0 ∧ s0.gameStarted ≠ 0 then
    .ok (stopBlock s0)
  else if s0.gameStarted = 0 then
    startBlock inp.now inp.wait s0
  else
    playBlock inp s0

/-- State at the first pass of the loop: the initial values of the globals and
lines 115-121 of `main`; `t1` and `t2` are the two ticks read there.  The LED
pins are low after `MX_GPIO_Init`. -/
def initState (t1 t2 : Nat) : State :=
  showStartPage
    { gameStarted := 0, score := 0, lastTick := t1, currentLevel := 0,
      levelStartTick := t2, moleLEDs := fun _ => 0, lastPressTime := fun _ => 0,
      lastStopTime := 0, currentMoles := fun _ => -1, moleCount := 1,
      ledOut := fun _ => GPIO_PIN_RESET, uart := [] }

/-! ## Predicates and concrete data used in the statements -/

/-- The result is the fault `blocked`. -/
def isBlocked {α : Type} : Except Fault α → Bool
  | .error .blocked => true
  | _ => false

/-- The first `n` entries are LED indices and pairwise distinct. -/
def validMoles (cm : Fin 3 → Int) (n : Nat) : Prop :=
  (∀ j : Fin 3, j.val < n → 0 ≤ cm j ∧ cm j < 4) ∧
    ∀ j k : Fin 3, j.val < n → k.val < n → j ≠ k → cm j ≠ cm k

/-- The state `s1` agrees with `s` except on the board (`moleLEDs`, `ledOut`) and the
transcript. -/
def boardOnly (s s1 : State) : Prop :=
  s1.gameStarted = s.gameStarted ∧ s1.score = s.score ∧ s1.lastTick = s.lastTick ∧
  s1.currentLevel = s.currentLevel ∧ s1.levelStartTick = s.levelStartTick ∧
  s1.lastPressTime = s.lastPressTime ∧ s1.lastStopTime = s.lastStopTime ∧
  s1.currentMoles = s.currentMoles ∧ s1.moleCount = s.moleCount

/-- The five debounced inputs. -/
inductive Button where
  | play (i : Fin 4)
  | stop
  deriving DecidableEq, Repr

/-- One call of a polling function, with the values it reads. -/
inductive Poll where
  | buttons (p : BtnPoll)
  | stop (p : StopPoll)

/-- Tick read by a poll. -/
def Poll.tick : Poll → Nat
  | .buttons p => p.now
  | .stop p => p.now

/-- Debounce timestamps: `lastPressTime` and `lastStopTime`. -/
structure Debounce where
  lastPressTime : Fin 4 → Nat
  lastStopTime : Nat

/-- Timestamp kept for a button. -/
def Debounce.stamp (d : Debounce) : Button → Nat
  | .play i => d.lastPressTime i
  | .stop => d.lastStopTime

/-- The poll accepts a press of button `b`: it passes the test that guards
the update of the timestamp of `b`. -/
def Poll.accepts (q : Poll) (d : Debounce) (b : Button) : Bool :=
  match q, b with
  | .buttons p, .play i => btnAccepted p d.lastPressTime i
  | .stop p, .stop => decide ((stopPressed p d.lastStopTime).1 ≠ 0)
  | _, _ => false

/-- Debounce timestamps after a poll. -/
def Poll.step (q : Poll) (d : Debounce) : Debounce :=
  match q with
  | .buttons p => { d with lastPressTime := (getPressedButton p d.lastPressTime).2 }
  | .stop p => { d with lastStopTime := (stopPressed p d.lastStopTime).2 }

/-- Ticks of the polls of a sequence that accept a press of button `b`, in
order. -/
def acceptedTicks (b : Button) : Debounce → List Poll → List Nat
  | _, [] => []
  | d, q :: qs =>
    (if q.accepts d b then [q.tick] else []) ++ acceptedTicks b (q.step d) qs

/-- State used in the concrete cases: playing at level 1 (index 0) since tick
200, score 7, LEDs 1 and 2 lit. -/
def examplePlaying : State :=
  { initState 0 0 with
    gameStarted := 1, score := 7, lastTick := 200, levelStartTick := 200,
    moleLEDs := ![0, 1, 1, 0],
    ledOut := ![GPIO_PIN_RESET, GPIO_PIN_SET, GPIO_PIN_SET, GPIO_PIN_RESET] }

/-- Input of a pass at tick 1000 with the stop pin high and no button pressed. -/
def exampleStopInput : LoopInput :=
  { now := 1000, stop := ⟨1000, GPIO_PIN_SET⟩, wait := [], rands := [],
    btn := ⟨1000, fun _ => GPIO_PIN_SET⟩ }

/-- Input of a pass at tick 200 in which the Idle wait sees, at tick 300, no
play button pressed and the stop pin high. -/
def exampleIdleStopInput : LoopInput :=
  { now := 200, stop := ⟨200, GPIO_PIN_RESET⟩,
    wait := [⟨⟨300, fun _ => GPIO_PIN_SET⟩, ⟨300, GPIO_PIN_SET⟩⟩],
    rands := [], btn := ⟨300, fun _ => GPIO_PIN_SET⟩ }

/-- Input of a pass at tick 200 in which the Idle wait sees, at tick 300,
play button 2 pressed. -/
def exampleIdlePlayInput : LoopInput :=
  { now := 200, stop := ⟨200, GPIO_PIN_RESET⟩,
    wait := [⟨⟨300, ![GPIO_PIN_SET, GPIO_PIN_SET, GPIO_PIN_RESET, GPIO_PIN_SET]⟩,
             ⟨300, GPIO_PIN_RESET⟩⟩],
    rands := [], btn := ⟨300, fun _ => GPIO_PIN_SET⟩ }

/-- State used in the concrete cases: as `examplePlaying` with LED 1 alone lit. -/
def exampleOneMole : State :=
  { examplePlaying with
    moleLEDs := ![0, 1, 0, 0],
    ledOut := ![GPIO_PIN_RESET, GPIO_PIN_SET, GPIO_PIN_RESET, GPIO_PIN_RESET] }

/-- A button poll at tick 305 with button 1 pressed. -/
def examplePressOne : BtnPoll :=
  ⟨305, ![GPIO_PIN_SET, GPIO_PIN_RESET, GPIO_PIN_SET, GPIO_PIN_SET]⟩

/-- State after the button block took `examplePressOne` in `exampleOneMole`:
the hit emptied the board. -/
def exampleCleared : State :=
  match buttonBlock examplePressOne exampleOneMole with
  | .ok s => s
  | .error _ => exampleOneMole

/-- Input of a pass at tick `now` while playing: stop pin low, `rand()` values
7, 2, 6, 1, no button pressed. -/
def examplePlayInput (now : Nat) : LoopInput :=
  { now := now, stop := ⟨now, GPIO_PIN_RESET⟩, wait := [], rands := [7, 2, 6, 1],
    btn := ⟨now, fun _ => GPIO_PIN_SET⟩ }

/-- Polls of the play buttons used in the concrete case: button 0 is held low
at the ticks 100, 120, 150 and 151. -/
def examplePolls : List Poll :=
  [.buttons ⟨100, ![GPIO_PIN_RESET, GPIO_PIN_SET, GPIO_PIN_SET, GPIO_PIN_SET]⟩,
   .buttons ⟨120, ![GPIO_PIN_RESET, GPIO_PIN_SET, GPIO_PIN_SET, GPIO_PIN_SET]⟩,
   .stop ⟨130, GPIO_PIN_SET⟩,
   .buttons ⟨150, ![GPIO_PIN_RESET, GPIO_PIN_SET, GPIO_PIN_SET, GPIO_PIN_SET]⟩,
   .buttons ⟨151, ![GPIO_PIN_RESET, GPIO_PIN_RESET, GPIO_PIN_SET, GPIO_PIN_SET]⟩]

/-! ## Reachable states and further predicates -/

/-- States at the top of a pass of `while(1)`: the state after lines 115-121
for any two ticks, and every state that a pass returns from such a state on
any input. -/
inductive Reachable : State → Prop where
  | init (t1 t2 : Nat) : Reachable (initState t1 t2)
  | step (s s1 : State) (inp : LoopInput) :
      Reachable s → mainLoop inp s = .ok s1 → Reachable s1

/-- Number of `moleLEDs` flags that are set. -/
def activeCount (s : State) : Nat :=
  ((List.finRange 4).filter (fun i => s.moleLEDs i ≠ 0)).length

/-- State in which the button poll of line 189 is reached in a pass (lines
124-186 of the pass are done); `none` when the pass ends before the poll, by
the `continue` of the stop, start or game-finished branch. -/
def beforePoll (inp : LoopInput) (s : State) : Except Fault (Option State) :=
  let s0 := { s with lastStopTime := (stopPressed inp.stop s.lastStopTime).2 }
  if (stopPressed inp.stop s.lastStopTime).1 ≠ 0 ∧ s0.gameStarted ≠ 0 then
    .ok none
  else if s0.gameStarted = 0 then
    match startBlock inp.now inp.wait s0 with
    | .error e => .error e
    | .ok _ => .ok none
  else
    match levelBlock inp.now s0 with
    | .error e => .error e
    | .ok (true, _) => .ok none
    | .ok (false, s1) =>
      match spawnBlock inp.now inp.rands s1 with
      | .error e => .error e
      | .ok s2 => .ok (some s2)

/-- Tick read by the poll that ended the Idle wait loop of line 139 (not
stored by the program); `none` when the loop has not ended on the rounds
supplied. -/
def idleWaitTick : List WaitRound → (Fin 4 → Nat) → Nat → Option Nat
  | [], _, _ => none
  | r :: rs, lastPressTime, lastStopTime =>
    if (getPressedButton r.btn lastPressTime).1 ≠ -1 then some r.btn.now
    else if (stopPressed r.stop lastStopTime).1 ≠ 0 then some r.stop.now
    else
      idleWaitTick rs (getPressedButton r.btn lastPressTime).2
        (stopPressed r.stop lastStopTime).2

/-- The entries `currentMoles[0..moleCount)`, in order. -/
def moleList (currentMoles : Fin 3 → Int) (moleCount : Int) : List Int :=
  ((List.finRange 3).filter (fun k => (k.val : Int) < moleCount)).map currentMoles

/-- Transcript entries written by the loop of `showMoleSet` with `n`
iterations left from index `i`: a blank and the 1-based LED number each. -/
def moleLabels (leds : Fin 3 → Int) : Nat → Nat → List String
  | 0, _ => []
  | n + 1, i =>
    if h : i < 3 then (" " ++ toString (leds ⟨i, h⟩ + 1)) :: moleLabels leds n (i + 1)
    else []

/-- State after the pass `exampleIdlePlayInput` from the initial state: the
game has just been started. -/
def exampleStarted : State :=
  match mainLoop exampleIdlePlayInput (initState 0 0) with
  | .ok s => s
  | .error _ => initState 0 0

/-- Input of a pass at tick 70000 while playing: stop pin low, button 1
pressed. -/
def exampleLevelUpInput : LoopInput :=
  { now := 70000, stop := ⟨70000, GPIO_PIN_RESET⟩, wait := [], rands := [7, 2, 6, 1],
    btn := ⟨70000, ![GPIO_PIN_SET, GPIO_PIN_RESET, GPIO_PIN_SET, GPIO_PIN_SET]⟩ }

/-- Input of a pass at tick 400 while playing: stop pin low, `rand()` values
0, 1 (one mole, LED 1), button 1 pressed. -/
def exampleHitInput : LoopInput :=
  { now := 400, stop := ⟨400, GPIO_PIN_RESET⟩, wait := [], rands := [0, 1],
    btn := ⟨400, ![GPIO_PIN_SET, GPIO_PIN_RESET, GPIO_PIN_SET, GPIO_PIN_SET]⟩ }

/-- Invariant of the states at the top of a pass: the game flag is 0 or 1;
while the game runs `currentLevel` is an index of the levels table; in Idle
the score is 0 and no flag is set; at most three flags are set. -/
def loopInvariant (s : State) : Prop :=
  (s.gameStarted = 0 ∨ s.gameStarted = 1) ∧
  (s.gameStarted ≠ 0 → 0 ≤ s.currentLevel ∧ s.currentLevel ≤ 2) ∧
  (s.gameStarted = 0 → s.score = 0 ∧ ∀ i, s.moleLEDs i = 0) ∧
  (∃ j, s.moleLEDs j = 0)

/-- State in which the pass `examplePlayInput 400` from `exampleStarted`
reaches the button poll. -/
def exampleAtPoll : State :=
  match beforePoll (examplePlayInput 400) exampleStarted with
  | .ok (some s) => s
  | _ => exampleStarted

/-- Input of a pass at tick 200 whose Idle wait sees nothing at tick 300 and
play button 2 pressed at tick 70000. -/
def exampleLateStartInput : LoopInput :=
  { now := 200, stop := ⟨200, GPIO_PIN_RESET⟩,
    wait := [⟨⟨300, fun _ => GPIO_PIN_SET⟩, ⟨300, GPIO_PIN_RESET⟩⟩,
             ⟨⟨70000, ![GPIO_PIN_SET, GPIO_PIN_SET, GPIO_PIN_RESET, GPIO_PIN_SET]⟩,
              ⟨70000, GPIO_PIN_RESET⟩⟩],
    rands := [], btn := ⟨70000, fun _ => GPIO_PIN_SET⟩ }

/-- The `rand()` values supplied are enough for the selection of lines 173-183
to end: the first value fixes `moleCount = 1 + r % 3`, and the values after it
show at least `moleCount` different residues modulo 4, so that every rejection
loop finds a value that is no duplicate. -/
def enoughRands : List Nat → Bool
  | [] => false
  | r :: rs => decide (1 + r % 3 ≤ ((rs.map (fun x => x % 4)).dedup).length)

/-- Input of a pass at tick 100 whose Idle wait ends at the wrapped tick 99
(`2^32 - 1` ms later) with play button 2 pressed. -/
def exampleWrappedStartInput : LoopInput :=
  { now := 100, stop := ⟨100, GPIO_PIN_RESET⟩,
    wait := [⟨⟨99, ![GPIO_PIN_SET, GPIO_PIN_SET, GPIO_PIN_RESET, GPIO_PIN_SET]⟩,
              ⟨99, GPIO_PIN_RESET⟩⟩],
    rands := [], btn := ⟨99, fun _ => GPIO_PIN_SET⟩ }

/-! # Theorems -/

open GPIO_PinState

theorem finRange_four : List.finRange 4 = [0, 1, 2, 3] := by rfl

theorem btnAccepted_iff (p : BtnPoll) (lpt : Fin 4 → Nat) (i : Fin 4) :
    btnAccepted p lpt i = true ↔
      p.pins i = GPIO_PIN_RESET ∧ sub32 p.now (lpt i) > DEBOUNCE_MS := by
  simp [btnAccepted]

/-- Closed form of the scan of `getPressedButton`. -/
theorem getPressedButton_eq (p : BtnPoll) (lpt : Fin 4 → Nat) :
    getPressedButton p lpt =
      (if btnAccepted p lpt 3 then 3 else if btnAccepted p lpt 2 then 2
        else if btnAccepted p lpt 1 then 1 else if btnAccepted p lpt 0 then 0 else -1,
       fun i => if btnAccepted p lpt i then p.now else lpt i) := by
  have h0 : ∀ acc : Int × (Fin 4 → Nat), ∀ i : Fin 4,
      getPressedButtonBody p acc i =
        if btnAccepted p acc.2 i then ((i.val : Int), Function.update acc.2 i p.now) else acc := by
    intro acc i
    unfold getPressedButtonBody btnAccepted
    by_cases h1 : p.pins i = GPIO_PIN_RESET <;> by_cases h2 : sub32 p.now (acc.2 i) > DEBOUNCE_MS <;>
      simp [h1, h2]
  have hu : ∀ (f : Fin 4 → Nat) (i j : Fin 4) (v : Nat), i ≠ j →
      btnAccepted p (Function.update f j v) i = btnAccepted p f i := by
    intro f i j v h
    simp [btnAccepted, Function.update_noteq h]
  unfold getPressedButton
  rw [finRange_four]
  simp only [List.foldl, h0]
  cases hb0 : btnAccepted p lpt 0 <;> cases hb1 : btnAccepted p lpt 1 <;>
    cases hb2 : btnAccepted p lpt 2 <;> cases hb3 : btnAccepted p lpt 3 <;>
    simp only [hu, hb0, hb1, hb2, hb3, ne_eq, not_false_eq_true, Bool.false_eq_true, if_true,
      if_false, reduceCtorEq] <;>
    (refine Prod.ext (by simp [hu, hb0, hb1, hb2, hb3] <;> rfl) ?_
     funext i; fin_cases i <;> simp [hu, hb0, hb1, hb2, hb3])

/-! ## Mole selection -/

theorem finRange_three : List.finRange 3 = [0, 1, 2] := by rfl

/-- The duplicate scan finds nothing exactly when `led` differs from every
entry below `i`. -/
theorem duplicate_eq_false_iff (cm : Fin 3 → Int) (i : Nat) (led : Int) :
    duplicate cm i led = false ↔ ∀ j : Fin 3, j.val < i → led ≠ cm j := by
  unfold duplicate
  rw [finRange_three]
  simp only [List.foldl]
  constructor
  · intro h j hj
    fin_cases j <;> simp at hj ⊢ <;> intro hc <;> simp [hj, hc] at h
  · intro h
    have h0 := h 0
    have h1 := h 1
    have h2 := h 2
    simp at h0 h1 h2
    by_cases c0 : 0 < i <;> by_cases c1 : 1 < i <;> by_cases c2 : 2 < i <;>
      simp [c0, c1, c2, h0, h1, h2]

/-- An accepted draw is in `[0,4)` and no duplicate of an earlier entry. -/
theorem drawLed_some (cm : Fin 3 → Int) (i : Nat) (rs : List Nat) (led : Int)
    (rest : List Nat) (h : drawLed cm i rs = some (led, rest)) :
    0 ≤ led ∧ led < 4 ∧ ∀ j : Fin 3, j.val < i → led ≠ cm j := by
  induction rs with
  | nil => simp [drawLed] at h
  | cons r rs ih =>
    unfold drawLed at h
    by_cases hd : duplicate cm i ((r % 4 : Nat) : Int) = true
    · rw [if_pos hd] at h
      exact ih h
    · rw [if_neg hd] at h
      simp only [Option.some.injEq, Prod.mk.injEq] at h
      obtain ⟨h1, -⟩ := h
      subst h1
      refine ⟨by omega, by omega, ?_⟩
      exact (duplicate_eq_false_iff cm i _).1 (by simpa using hd)

theorem validMoles_update (cm : Fin 3 → Int) (i : Nat) (hi : i < 3) (led : Int)
    (hv : validMoles cm i) (h0 : 0 ≤ led) (h4 : led < 4)
    (hn : ∀ j : Fin 3, j.val < i → led ≠ cm j) :
    validMoles (Function.update cm ⟨i, hi⟩ led) (i + 1) := by
  have key : ∀ j : Fin 3, j.val < i + 1 →
      (j = ⟨i, hi⟩ ∧ Function.update cm ⟨i, hi⟩ led j = led) ∨
      (j.val < i ∧ Function.update cm ⟨i, hi⟩ led j = cm j) := by
    intro j hj
    by_cases hji : j = ⟨i, hi⟩
    · left; exact ⟨hji, by rw [hji, Function.update_same]⟩
    · right
      refine ⟨?_, Function.update_noteq hji _ _⟩
      have : j.val ≠ i := fun hc => hji (Fin.ext hc)
      omega
  constructor
  · intro j hj
    rcases key j hj with ⟨-, e⟩ | ⟨hlt, e⟩
    · rw [e]; exact ⟨h0, h4⟩
    · rw [e]; exact hv.1 j hlt
  · intro j k hj hk hjk
    rcases key j hj with ⟨ej, e1⟩ | ⟨hlt1, e1⟩ <;> rcases key k hk with ⟨ek, e2⟩ | ⟨hlt2, e2⟩ <;>
      rw [e1, e2]
    · exact absurd (ej.trans ek.symm) hjk
    · exact hn k hlt2
    · exact fun hc => hn j hlt1 hc.symm
    · exact hv.2 j k hlt1 hlt2 hjk

/-- The selection loop keeps the filled prefix valid, never indexes outside
`currentMoles`, and leaves the entries it does not write. -/
theorem chooseLoop_spec (n : Nat) : ∀ (i : Nat) (cm : Fin 3 → Int) (rs : List Nat),
    i + n ≤ 3 → validMoles cm i →
    chooseLoop n i cm rs = .error .blocked ∨
      ∃ cm1 rest, chooseLoop n i cm rs = .ok (cm1, rest) ∧ validMoles cm1 (i + n) := by
  induction n with
  | zero =>
    intro i cm rs _ hv
    right
    exact ⟨cm, rs, rfl, hv⟩
  | succ n ih =>
    intro i cm rs hin hv
    have hi : i < 3 := by omega
    unfold chooseLoop
    rw [dif_pos hi]
    cases hd : drawLed cm i rs with
    | none => left; rfl
    | some pr =>
      obtain ⟨led, rs1⟩ := pr
      obtain ⟨h0, h4, hn⟩ := drawLed_some cm i rs led rs1 hd
      have hv1 := validMoles_update cm i hi led hv h0 h4 hn
      have := ih (i + 1) (Function.update cm ⟨i, hi⟩ led) rs1 (by omega) hv1
      simpa [Nat.add_assoc, Nat.add_comm 1 n] using this

theorem validMoles_zero (cm : Fin 3 → Int) : validMoles cm 0 :=
  ⟨fun _ hj => absurd hj (Nat.not_lt_zero _), fun _ _ hj => absurd hj (Nat.not_lt_zero _)⟩

/-- The selection of lines 173-183 on a supply of `rand()` values that does
not block it: it never indexes outside `currentMoles` and fills a valid
prefix of length `moleCount`, with `moleCount` in {1,2,3}. -/
theorem chooseMoles_valid (currentMoles : Fin 3 → Int) (rands : List Nat)
    (hterm : isBlocked (chooseMoles currentMoles rands) = false) :
    ∃ (moleCount : Int) (cm1 : Fin 3 → Int) (rest : List Nat),
      chooseMoles currentMoles rands = .ok (moleCount, cm1, rest) ∧
      (moleCount = 1 ∨ moleCount = 2 ∨ moleCount = 3) ∧
      validMoles cm1 moleCount.toNat := by
  cases rands with
  | nil => simp [chooseMoles, isBlocked] at hterm
  | cons r rs =>
    simp only [chooseMoles] at hterm ⊢
    have hn : (1 + ((r % 3 : Nat) : Int)).toNat = 1 + r % 3 := by omega
    rw [hn] at hterm ⊢
    rcases chooseLoop_spec (1 + r % 3) 0 currentMoles rs (by omega) (validMoles_zero _) with
      hb | ⟨cm1, rest, hok, hv⟩
    · rw [hb] at hterm
      simp [isBlocked] at hterm
    · rw [hok]
      exact ⟨_, cm1, rest, rfl, by omega, by simpa using hv⟩

/-! ## LEDs -/

/-- Closed form of `clearLEDs`. -/
theorem clearLEDs_eq (s : State) :
    clearLEDs s = { s with ledOut := fun _ => GPIO_PIN_RESET, moleLEDs := fun _ => 0 } := by
  unfold clearLEDs
  rw [finRange_four]
  simp only [List.foldl, clearLEDsBody]
  congr 1
  · funext i; fin_cases i <;> simp [Function.update]
  · funext i; fin_cases i <;> simp [Function.update]

theorem anyActive_eq_zero_iff (s : State) : anyActive s = 0 ↔ ∀ i, s.moleLEDs i = 0 := by
  unfold anyActive
  rw [finRange_four]
  simp only [List.foldl, Fin.forall_fin_succ]
  by_cases h0 : s.moleLEDs 0 = 0 <;> by_cases h1 : s.moleLEDs 1 = 0 <;>
    by_cases h2 : s.moleLEDs 2 = 0 <;> by_cases h3 : s.moleLEDs 3 = 0 <;>
    simp [h0, h1, h2, h3] <;> first | exact h0 | exact h1 | exact h2 | exact h3

theorem allCleared_ne_zero_iff (s : State) : allCleared s ≠ 0 ↔ ∀ i, s.moleLEDs i = 0 := by
  unfold allCleared
  rw [finRange_four]
  simp only [List.foldl, Fin.forall_fin_succ]
  by_cases h0 : s.moleLEDs 0 = 0 <;> by_cases h1 : s.moleLEDs 1 = 0 <;>
    by_cases h2 : s.moleLEDs 2 = 0 <;> by_cases h3 : s.moleLEDs 3 = 0 <;>
    simp [h0, h1, h2, h3] <;> first | exact h0 | exact h1 | exact h2 | exact h3

theorem index4_val (p : Fin 4) : index4 (p.val : Int) = some p := by
  unfold index4
  have h : 0 ≤ (p.val : Int) ∧ (p.val : Int) < 4 := by omega
  rw [dif_pos h]
  simp

/-! ## Spawn -/

theorem index4_of_range (x : Int) (h0 : 0 ≤ x) (h4 : x < 4) :
    ∃ l : Fin 4, index4 x = some l ∧ (l.val : Int) = x := by
  unfold index4
  rw [dif_pos ⟨h0, h4⟩]
  exact ⟨_, rfl, by simp [Int.toNat_of_nonneg h0]⟩

/-- The loop of `showMoleSet` on LED indices in range: it ends without fault,
sets flag and LED of every listed index, and leaves every other flag and LED. -/
theorem showMoleSetLoop_spec (leds : Fin 3 → Int) (n : Nat) : ∀ (i : Nat) (s : State),
    i + n ≤ 3 →
    (∀ k : Fin 3, i ≤ k.val → k.val < i + n → 0 ≤ leds k ∧ leds k < 4) →
    ∃ s1, showMoleSetLoop leds n i s = .ok s1 ∧ boardOnly s s1 ∧
      (∀ j : Fin 4, (∃ k : Fin 3, i ≤ k.val ∧ k.val < i + n ∧ leds k = (j.val : Int)) →
        s1.moleLEDs j = 1 ∧ s1.ledOut j = GPIO_PIN_SET) ∧
      (∀ j : Fin 4, (¬ ∃ k : Fin 3, i ≤ k.val ∧ k.val < i + n ∧ leds k = (j.val : Int)) →
        s1.moleLEDs j = s.moleLEDs j ∧ s1.ledOut j = s.ledOut j) := by
  induction n with
  | zero =>
    intro i s _ _
    refine ⟨s, rfl, ⟨rfl, rfl, rfl, rfl, rfl, rfl, rfl, rfl, rfl⟩, ?_, ?_⟩
    · rintro j ⟨k, h1, h2, -⟩
      omega
    · intro j _
      exact ⟨rfl, rfl⟩
  | succ n ih =>
    intro i s hin hr
    have hi : i < 3 := by omega
    obtain ⟨l, hl, hlv⟩ := index4_of_range (leds ⟨i, hi⟩) (hr ⟨i, hi⟩ (le_refl _) (by simp)).1
      (hr ⟨i, hi⟩ (le_refl _) (by simp)).2
    obtain ⟨s1, hs1, hb, hset, hkeep⟩ := ih (i + 1)
      (uartPrint (" " ++ toString (leds ⟨i, hi⟩ + 1))
        { s with ledOut := Function.update s.ledOut l GPIO_PIN_SET,
                 moleLEDs := Function.update s.moleLEDs l 1 })
      (by omega) (fun k h1 h2 => hr k (by omega) (by omega))
    refine ⟨s1, ?_, ?_, ?_, ?_⟩
    · unfold showMoleSetLoop
      rw [dif_pos hi]
      simp only [hl]
      exact hs1
    · simpa [boardOnly, uartPrint] using hb
    · rintro j ⟨k, h1, h2, h3⟩
      by_cases hlater : ∃ k : Fin 3, i + 1 ≤ k.val ∧ k.val < i + 1 + n ∧ leds k = (j.val : Int)
      · exact hset j hlater
      · have hki : k = ⟨i, hi⟩ := by
          apply Fin.ext
          by_contra hc
          exact hlater ⟨k, by simp at hc; omega, by omega, h3⟩
        have hjl : j = l := by
          apply Fin.ext
          rw [hki] at h3
          omega
        have := hkeep j hlater
        simpa [uartPrint, hjl] using this
    · intro j hj
      have hlater : ¬ ∃ k : Fin 3, i + 1 ≤ k.val ∧ k.val < i + 1 + n ∧ leds k = (j.val : Int) := by
        rintro ⟨k, h1, h2, h3⟩
        exact hj ⟨k, by omega, by omega, h3⟩
      have hjl : j ≠ l := by
        intro hc
        apply hj
        exact ⟨⟨i, hi⟩, le_refl _, by simp, by rw [hc]; exact hlv.symm⟩
      have := hkeep j hlater
      simpa [uartPrint, Function.update_noteq hjl] using this

/-- On a supply of `rand()` values that does not block the selection, the body
of the spawn `if` ends without fault, sets `lastTick` to `now`, lights at
least one LED, and leaves the game flag, score, level and debounce state. -/
theorem spawnBody_spec (now : Nat) (rands : List Nat) (s : State)
    (hterm : isBlocked (spawnBody now rands s) = false) :
    ∃ s1, spawnBody now rands s = .ok s1 ∧ s1.lastTick = now ∧
      s1.gameStarted = s.gameStarted ∧ s1.score = s.score ∧
      s1.currentLevel = s.currentLevel ∧ s1.levelStartTick = s.levelStartTick ∧
      s1.lastPressTime = s.lastPressTime ∧ s1.lastStopTime = s.lastStopTime ∧
      (∃ j : Fin 4, s1.moleLEDs j = 1 ∧ s1.ledOut j = GPIO_PIN_SET) ∧
      (∀ j : Fin 4, (s1.moleLEDs j = 1 ∧ s1.ledOut j = GPIO_PIN_SET) ∨
        (s1.moleLEDs j = 0 ∧ s1.ledOut j = GPIO_PIN_RESET)) := by
  have hcm : isBlocked (chooseMoles s.currentMoles rands) = false := by
    cases hc : chooseMoles s.currentMoles rands with
    | error e =>
      unfold spawnBody at hterm
      rw [hc] at hterm
      cases e with
      | outOfBounds => rfl
      | blocked => simp [isBlocked] at hterm
    | ok r => rfl
  obtain ⟨moleCount, cm1, rest, hok, hcount, hv⟩ := chooseMoles_valid s.currentMoles rands hcm
  have hrange : ∀ j : Fin 3, (j.val : Int) < moleCount → 0 ≤ cm1 j ∧ cm1 j < 4 :=
    fun j hj => hv.1 j (by omega)
  obtain ⟨s1, hs1, hb, hset, hkeep⟩ := showMoleSetLoop_spec cm1 moleCount.toNat 0
    (uartPrint "\r\nMole popped on LED(s):"
      (clearLEDs { s with moleCount := moleCount, currentMoles := cm1 }))
    (by omega) (fun k _ h2 => hrange k (by omega))
  obtain ⟨l, -, hlv⟩ := index4_of_range (cm1 ⟨0, by omega⟩) (hrange ⟨0, by omega⟩ (by simp; omega)).1
    (hrange ⟨0, by omega⟩ (by simp; omega)).2
  refine ⟨{ uartPrint "\r\n" s1 with lastTick := now }, ?_, rfl, ?_⟩
  · unfold spawnBody
    rw [hok]
    simp only [showMoleSet, hs1]
  · obtain ⟨b1, b2, b3, b4, b5, b6, b7, b8, b9⟩ := hb
    simp only [uartPrint, clearLEDs_eq] at b1 b2 b3 b4 b5 b6 b7 b8 b9 hset hkeep ⊢
    refine ⟨b1, b2, b4, b5, b6, b7, ?_, ?_⟩
    · exact ⟨l, hset l ⟨⟨0, by omega⟩, le_refl _, by simp; omega, hlv.symm⟩⟩
    · intro j
      by_cases hj : ∃ k : Fin 3, 0 ≤ k.val ∧ k.val < 0 + moleCount.toNat ∧ cm1 k = (j.val : Int)
      · exact Or.inl (hset j hj)
      · exact Or.inr (hkeep j hj)

/-! ## Enough `rand()` values end the selection -/

/-- The rejection loop ends when a value that is no duplicate is supplied, and
it keeps every supplied value that is neither a duplicate nor the residue
drawn. -/
theorem drawLed_progress (cm : Fin 3 → Int) (i : Nat) : ∀ cur : List Nat,
    (∃ x ∈ cur, duplicate cm i ((x % 4 : Nat) : Int) = false) →
    ∃ led rest, drawLed cm i cur = some (led, rest) ∧
      ∀ x ∈ cur, ((x % 4 : Nat) : Int) ≠ led →
        duplicate cm i ((x % 4 : Nat) : Int) = false → x ∈ rest := by
  intro cur
  induction cur with
  | nil => rintro ⟨x, hx, -⟩; simp at hx
  | cons r rs ih =>
    rintro ⟨x, hx, hfresh⟩
    unfold drawLed
    by_cases hd : duplicate cm i ((r % 4 : Nat) : Int) = true
    · rw [if_pos hd]
      have hxr : x ≠ r := by
        intro hc
        rw [hc, hd] at hfresh
        simp at hfresh
      have hxrs : x ∈ rs := by
        rcases List.mem_cons.1 hx with h | h
        · exact absurd h hxr
        · exact h
      obtain ⟨led, rest, hdraw, hkeep⟩ := ih ⟨x, hxrs, hfresh⟩
      refine ⟨led, rest, hdraw, ?_⟩
      intro y hy hne hyf
      rcases List.mem_cons.1 hy with h | h
      · rw [h, hd] at hyf
        simp at hyf
      · exact hkeep y h hne hyf
    · rw [if_neg hd]
      refine ⟨_, rs, rfl, ?_⟩
      intro y hy hne _
      rcases List.mem_cons.1 hy with h | h
      · rw [h] at hne
        exact absurd rfl hne
      · exact h

/-- With more than `i` different residues supplied, one of them differs from
the `i` entries already chosen. -/
theorem exists_fresh (cm : Fin 3 → Int) (i : Nat) (hi : i < 3) (rs0 : List Nat)
    (hcard : i < ((rs0.map (fun x => x % 4)).dedup).length) :
    ∃ x ∈ rs0, ∀ j : Fin 3, j.val < i → ((x % 4 : Nat) : Int) ≠ cm j := by
  classical
  let R : Finset Nat := (rs0.map (fun x => x % 4)).toFinset
  let S : Finset Int := Finset.univ.image (fun k : Fin i => cm ⟨k.val, by omega⟩)
  have hS : S.card ≤ i := by
    have := Finset.card_image_le (s := (Finset.univ : Finset (Fin i)))
      (f := fun k : Fin i => cm ⟨k.val, by omega⟩)
    simpa using this
  have hR : (R.image (fun n : Nat => (n : Int))).card = ((rs0.map (fun x => x % 4)).dedup).length := by
    rw [Finset.card_image_of_injective _ Nat.cast_injective, List.card_toFinset]
  have hsub : ¬ (R.image (fun n : Nat => (n : Int)) ⊆ S) := by
    intro hc
    have := Finset.card_le_card hc
    omega
  obtain ⟨y, hyR, hyS⟩ := Finset.not_subset.1 hsub
  obtain ⟨n, hn, rfl⟩ := Finset.mem_image.1 hyR
  obtain ⟨x, hx, rfl⟩ := List.mem_map.1 (List.mem_toFinset.1 hn)
  refine ⟨x, hx, fun j hj hc => hyS ?_⟩
  exact Finset.mem_image.2 ⟨⟨j.val, hj⟩, Finset.mem_univ _, hc.symm⟩

/-- The selection loop ends without fault when the values supplied show at
least as many different residues as entries are to be filled. -/
theorem chooseLoop_total (rs0 : List Nat) (n : Nat) :
    ∀ (i : Nat) (cm : Fin 3 → Int) (cur : List Nat),
    i + n ≤ 3 → i + n ≤ ((rs0.map (fun x => x % 4)).dedup).length →
    (∀ x ∈ rs0, (∀ j : Fin 3, j.val < i → ((x % 4 : Nat) : Int) ≠ cm j) → x ∈ cur) →
    ∃ cm1 rest, chooseLoop n i cm cur = .ok (cm1, rest) := by
  induction n with
  | zero => intro i cm cur _ _ _; exact ⟨cm, cur, rfl⟩
  | succ n ih =>
    intro i cm cur h3 hcard hinv
    have hi : i < 3 := by omega
    obtain ⟨x, hx, hfresh⟩ := exists_fresh cm i hi rs0 (by omega)
    obtain ⟨led, rest, hdraw, hkeep⟩ := drawLed_progress cm i cur
      ⟨x, hinv x hx hfresh, (duplicate_eq_false_iff cm i _).2 hfresh⟩
    unfold chooseLoop
    rw [dif_pos hi]
    simp only [hdraw]
    apply ih (i + 1) _ rest (by omega) (by omega)
    intro y hy hyf
    have hold : ∀ j : Fin 3, j.val < i → ((y % 4 : Nat) : Int) ≠ cm j := by
      intro j hj
      have := hyf j (by omega)
      rwa [Function.update_noteq (fun hc => by rw [hc] at hj; simp at hj)] at this
    have hled : ((y % 4 : Nat) : Int) ≠ led := by
      have := hyf ⟨i, hi⟩ (by simp)
      rwa [Function.update_same] at this
    exact hkeep y (hinv y hy hold) hled ((duplicate_eq_false_iff cm i _).2 hold)

/-- Enough `rand()` values: the selection is not blocked. -/
theorem chooseMoles_total (cm : Fin 3 → Int) (rands : List Nat)
    (h : enoughRands rands = true) : isBlocked (chooseMoles cm rands) = false := by
  cases rands with
  | nil => simp [enoughRands] at h
  | cons r rs =>
    simp only [enoughRands, decide_eq_true_eq] at h
    have hn : (1 + ((r % 3 : Nat) : Int)).toNat = 1 + r % 3 := by omega
    obtain ⟨cm1, rest, hok⟩ := chooseLoop_total rs (1 + r % 3) 0 cm rs (by omega) (by omega)
      (fun x hx _ => hx)
    simp only [chooseMoles, hn, hok]
    rfl

/-- Enough `rand()` values: the body of the spawn `if` is not blocked. -/
theorem spawnBody_total (now : Nat) (rands : List Nat) (s : State)
    (h : enoughRands rands = true) : isBlocked (spawnBody now rands s) = false := by
  have hcm := chooseMoles_total s.currentMoles rands h
  obtain ⟨moleCount, cm1, rest, hok, hcount, hv⟩ := chooseMoles_valid s.currentMoles rands hcm
  obtain ⟨s1, hs1, -⟩ := showMoleSetLoop_spec cm1 moleCount.toNat 0
    (uartPrint "\r\nMole popped on LED(s):"
      (clearLEDs { s with moleCount := moleCount, currentMoles := cm1 }))
    (by omega) (fun k _ h2 => hv.1 k (by omega))
  unfold spawnBody
  rw [hok]
  simp only [showMoleSet, hs1]
  rfl

/-! ## One pass while playing -/

theorem levels_some (l : Int) (lv : Level) (h : levels l = some lv) :
    (l = 0 ∨ l = 1 ∨ l = 2) ∧ lv.duration = 60000 := by
  unfold levels at h
  split_ifs at h with h0 h1 h2 <;> simp at h <;> subst h <;> simp [*]

theorem levels_isSome (l : Int) (h0 : 0 ≤ l) (h2 : l ≤ 2) : ∃ lv, levels l = some lv := by
  have : l = 0 ∨ l = 1 ∨ l = 2 := by omega
  rcases this with h | h | h <;> subst h <;> exact ⟨_, rfl⟩

theorem getPressedButton_fst_cases (bp : BtnPoll) (lastPressTime : Fin 4 → Nat) :
    (getPressedButton bp lastPressTime).1 = -1 ∨
      ∃ p : Fin 4, (getPressedButton bp lastPressTime).1 = (p.val : Int) := by
  rw [getPressedButton_eq]
  cases btnAccepted bp lastPressTime 3
  · cases btnAccepted bp lastPressTime 2
    · cases btnAccepted bp lastPressTime 1
      · cases btnAccepted bp lastPressTime 0
        · left; simp
        · right; exact ⟨0, by simp⟩
      · right; exact ⟨1, by simp⟩
    · right; exact ⟨2, by simp⟩
  · right; exact ⟨3, by simp; rfl⟩

/-- The body of `if(pressed != -1)` for a button index: it ends without fault
and leaves the game flag, the level and the stop timestamp. -/
theorem pressedBody_spec (p : Fin 4) (s : State) :
    ∃ s1, pressedBody (p.val : Int) s = .ok s1 ∧ s1.gameStarted = s.gameStarted ∧
      s1.currentLevel = s.currentLevel ∧ s1.levelStartTick = s.levelStartTick ∧
      s1.lastStopTime = s.lastStopTime ∧ s1.lastPressTime = s.lastPressTime := by
  unfold pressedBody
  rw [index4_val]
  refine ⟨_, rfl, ?_⟩
  split_ifs <;> simp [uartPrint]

/-- The button block ends without fault and leaves the game flag, the level
and the stop timestamp. -/
theorem buttonBlock_spec (btn : BtnPoll) (s : State) :
    ∃ s1, buttonBlock btn s = .ok s1 ∧ s1.gameStarted = s.gameStarted ∧
      s1.currentLevel = s.currentLevel ∧ s1.levelStartTick = s.levelStartTick ∧
      s1.lastStopTime = s.lastStopTime := by
  unfold buttonBlock
  rcases getPressedButton_fst_cases btn s.lastPressTime with h | ⟨p, hp⟩
  · rw [if_neg (by simp [h])]
    exact ⟨_, rfl, rfl, rfl, rfl, rfl⟩
  · rw [if_pos (by rw [hp]; omega), hp]
    obtain ⟨s1, h1, h2, h3, h4, h5, -⟩ := pressedBody_spec p
      { s with lastPressTime := (getPressedButton btn s.lastPressTime).2 }
    exact ⟨s1, h1, h2, h3, h4, h5⟩

/-- The spawn block in a state whose level is in the table, on a supply of
`rand()` values that does not block it: it ends without fault and leaves the
game flag, the level and the debounce state. -/
theorem spawnBlock_spec (now : Nat) (rands : List Nat) (s : State) (lv : Level)
    (hlv : levels s.currentLevel = some lv)
    (hterm : isBlocked (spawnBlock now rands s) = false) :
    ∃ s1, spawnBlock now rands s = .ok s1 ∧ s1.gameStarted = s.gameStarted ∧
      s1.currentLevel = s.currentLevel ∧ s1.levelStartTick = s.levelStartTick ∧
      s1.lastStopTime = s.lastStopTime ∧ s1.lastPressTime = s.lastPressTime ∧
      s1.score = s.score := by
  unfold spawnBlock at hterm ⊢
  rw [hlv] at hterm ⊢
  by_cases ha : anyActive s = 0
  · rw [if_pos ha] at hterm ⊢
    obtain ⟨s1, h, -, h1, h2, h3, h4, h5, h6, -⟩ := spawnBody_spec now rands s hterm
    exact ⟨s1, h, h1, h3, h4, h6, h5, h2⟩
  · rw [if_neg ha] at hterm ⊢
    by_cases ht : sub32 now s.lastTick ≥ lv.interval
    · simp only [ht, if_true] at hterm ⊢
      obtain ⟨s1, h, -, h1, h2, h3, h4, h5, h6, -⟩ := spawnBody_spec now rands s hterm
      exact ⟨s1, h, h1, h3, h4, h6, h5, h2⟩
    · simp only [ht, if_false]
      exact ⟨s, rfl, rfl, rfl, rfl, rfl, rfl, rfl⟩

/-- Spawn block followed by button block, as in `spawnBlock_spec`. -/
theorem spawnAndPress_spec (inp : LoopInput) (s : State) (lv : Level)
    (hlv : levels s.currentLevel = some lv)
    (hterm : isBlocked (spawnAndPress inp s) = false) :
    ∃ s2, spawnAndPress inp s = .ok s2 ∧ s2.gameStarted = s.gameStarted ∧
      s2.currentLevel = s.currentLevel ∧ s2.levelStartTick = s.levelStartTick := by
  have hsp : isBlocked (spawnBlock inp.now inp.rands s) = false := by
    cases hc : spawnBlock inp.now inp.rands s with
    | error e =>
      unfold spawnAndPress at hterm
      rw [hc] at hterm
      cases e with
      | outOfBounds => rfl
      | blocked => simp [isBlocked] at hterm
    | ok r => rfl
  obtain ⟨s1, h, h1, h2, h3, -⟩ := spawnBlock_spec inp.now inp.rands s lv hlv hsp
  obtain ⟨s2, g, g1, g2, g3, -⟩ := buttonBlock_spec inp.btn s1
  refine ⟨s2, ?_, by rw [g1, h1], by rw [g2, h2], by rw [g3, h3]⟩
  unfold spawnAndPress
  rw [h]
  exact g

/-- A rejected stop poll leaves the state as it is. -/
theorem stopPressed_zero (sp : StopPoll) (t : Nat) (h : (stopPressed sp t).1 = 0) :
    (stopPressed sp t).2 = t := by
  unfold stopPressed at h ⊢
  split_ifs at h ⊢ <;> simp at h ⊢

/-- A pass that starts with the game running and rejects the stop poll is the
play block on the unchanged state. -/
theorem mainLoop_playing (inp : LoopInput) (s : State) (hplay : s.gameStarted ≠ 0)
    (hstop : (stopPressed inp.stop s.lastStopTime).1 = 0) :
    mainLoop inp s = playBlock inp s := by
  unfold mainLoop
  simp only [hstop, stopPressed_zero inp.stop s.lastStopTime hstop, ne_eq, not_true_eq_false,
    false_and, if_false, hplay]
/-- C1: on every supply of non-negative `rand()` values on which the
rejection loop terminates (the selection is not blocked), the mole selection
of the spawn step returns `moleCount` in {1,2,3} and an array `currentMoles`
whose first `moleCount` entries lie in `[0,4)` and are pairwise distinct,
whatever `currentMoles` held before. -/
theorem chooseMoles_distinct (currentMoles : Fin 3 → Int) (rands : List Nat)
    (hterm : isBlocked (chooseMoles currentMoles rands) = false) :
    ∃ (moleCount : Int) (cm1 : Fin 3 → Int) (rest : List Nat),
      chooseMoles currentMoles rands = .ok (moleCount, cm1, rest) ∧
      (moleCount = 1 ∨ moleCount = 2 ∨ moleCount = 3) ∧
      (∀ j : Fin 3, (j.val : Int) < moleCount → 0 ≤ cm1 j ∧ cm1 j < 4) ∧
      (∀ j k : Fin 3, (j.val : Int) < moleCount → (k.val : Int) < moleCount →
        j ≠ k → cm1 j ≠ cm1 k) := by
  obtain ⟨moleCount, cm1, rest, hok, hcount, hv⟩ := chooseMoles_valid currentMoles rands hterm
  refine ⟨moleCount, cm1, rest, hok, hcount, ?_, ?_⟩
  · intro j hj
    exact hv.1 j (by omega)
  · intro j k hj hk hjk
    exact hv.2 j k (by omega) (by omega) hjk

/-- C1 at a concrete supply: the values 7, 2, 6, 1 give `moleCount = 2`
and the LEDs 2 and 1 (6 % 4 repeats 2 and is drawn again). -/
theorem chooseMoles_distinct_witness :
    isBlocked (chooseMoles (fun _ => -1) [7, 2, 6, 1]) = false ∧
    ∃ (moleCount : Int) (cm1 : Fin 3 → Int) (rest : List Nat),
      chooseMoles (fun _ => -1) [7, 2, 6, 1] = .ok (moleCount, cm1, rest) ∧
      (moleCount = 1 ∨ moleCount = 2 ∨ moleCount = 3) ∧
      (∀ j : Fin 3, (j.val : Int) < moleCount → 0 ≤ cm1 j ∧ cm1 j < 4) ∧
      (∀ j k : Fin 3, (j.val : Int) < moleCount → (k.val : Int) < moleCount →
        j ≠ k → cm1 j ≠ cm1 k) :=
  ⟨by decide, chooseMoles_distinct (fun _ => -1) [7, 2, 6, 1] (by decide)⟩

/-! ## Debounce -/

/-- C7 as stated fails at exactly 50 ms: with the stop pin high, `now = 50`
and `lastStopTime = 0`, the elapsed time is 50 (at least 50 ms), yet
`stopPressed` returns 0 and leaves `lastStopTime` at 0. -/
theorem stopPressed_rejects_at_50ms :
    (StopPoll.mk 50 GPIO_PIN_SET).pin = GPIO_PIN_SET ∧ sub32 50 0 ≥ 50 ∧
      (stopPressed ⟨50, GPIO_PIN_SET⟩ 0).1 = 0 ∧ (stopPressed ⟨50, GPIO_PIN_SET⟩ 0).2 = 0 := by
  decide

/-- C7, amended: with elapsed time `(now - last) mod 2^32`, `stopPressed`
returns 1 exactly when the stop pin reads high and more than 50 ms have
elapsed since `lastStopTime` (the test is `>`, not `>=`), and 0 otherwise;
`lastStopTime` becomes `now` when it returns 1 and is unchanged otherwise.
For each button `i`, `getPressedButton` sets `lastPressTime[i]` to `now` when
pin `i` is low and more than 50 ms have elapsed since `lastPressTime[i]`, and
leaves it unchanged otherwise. -/
theorem debounce_rule (sp : StopPoll) (lastStopTime : Nat) (bp : BtnPoll)
    (lastPressTime : Fin 4 → Nat) (i : Fin 4) :
    ((stopPressed sp lastStopTime).1 = 1 ↔
        sp.pin = GPIO_PIN_SET ∧ sub32 sp.now lastStopTime > 50) ∧
    ((stopPressed sp lastStopTime).1 = 1 ∨ (stopPressed sp lastStopTime).1 = 0) ∧
    (stopPressed sp lastStopTime).2 =
        (if (stopPressed sp lastStopTime).1 = 1 then sp.now else lastStopTime) ∧
    (getPressedButton bp lastPressTime).2 i =
        (if bp.pins i = GPIO_PIN_RESET ∧ sub32 bp.now (lastPressTime i) > 50
          then bp.now else lastPressTime i) := by
  refine ⟨?_, ?_, ?_, ?_⟩
  · unfold stopPressed DEBOUNCE_MS
    by_cases h1 : sp.pin = GPIO_PIN_SET <;> by_cases h2 : sub32 sp.now lastStopTime > 50 <;>
      simp [h1, h2]
  · unfold stopPressed DEBOUNCE_MS
    by_cases h1 : sp.pin = GPIO_PIN_SET <;> by_cases h2 : sub32 sp.now lastStopTime > 50 <;>
      simp [h1, h2]
  · unfold stopPressed DEBOUNCE_MS
    by_cases h1 : sp.pin = GPIO_PIN_SET <;> by_cases h2 : sub32 sp.now lastStopTime > 50 <;>
      simp [h1, h2]
  · rw [getPressedButton_eq]
    simp [btnAccepted, DEBOUNCE_MS]

/-! ## Result of the button scan -/

/-- C9: `getPressedButton` returns -1 when no button is both low and past its
debounce test; otherwise it returns the largest index whose pin is low and
whose debounce test passes.  The result is one of -1, 0, 1, 2, 3. -/
theorem getPressedButton_result (bp : BtnPoll) (lastPressTime : Fin 4 → Nat) :
    ((¬ ∃ i : Fin 4, bp.pins i = GPIO_PIN_RESET ∧
          sub32 bp.now (lastPressTime i) > DEBOUNCE_MS) →
        (getPressedButton bp lastPressTime).1 = -1) ∧
    ((∃ i : Fin 4, bp.pins i = GPIO_PIN_RESET ∧
          sub32 bp.now (lastPressTime i) > DEBOUNCE_MS) →
        ∃ m : Fin 4, (getPressedButton bp lastPressTime).1 = (m.val : Int) ∧
          (bp.pins m = GPIO_PIN_RESET ∧ sub32 bp.now (lastPressTime m) > DEBOUNCE_MS) ∧
          ∀ j : Fin 4, bp.pins j = GPIO_PIN_RESET ∧
            sub32 bp.now (lastPressTime j) > DEBOUNCE_MS → j ≤ m) ∧
    ((getPressedButton bp lastPressTime).1 = -1 ∨ (getPressedButton bp lastPressTime).1 = 0 ∨
      (getPressedButton bp lastPressTime).1 = 1 ∨ (getPressedButton bp lastPressTime).1 = 2 ∨
      (getPressedButton bp lastPressTime).1 = 3) := by
  simp only [← btnAccepted_iff]
  rw [getPressedButton_eq]
  refine ⟨?_, ?_, ?_⟩
  · intro h
    have hall : ∀ i, btnAccepted bp lastPressTime i = false := by
      intro i
      by_contra hc
      exact h ⟨i, by simpa using hc⟩
    simp [hall]
  · rintro ⟨i, hi⟩
    by_cases h3 : btnAccepted bp lastPressTime 3 = true
    · refine ⟨3, by simp [h3]; rfl, h3, fun j _ => ?_⟩
      fin_cases j <;> decide
    by_cases h2 : btnAccepted bp lastPressTime 2 = true
    · refine ⟨2, by simp [h3, h2], h2, fun j hj => ?_⟩
      fin_cases j <;> first | decide | exact absurd hj h3
    by_cases h1 : btnAccepted bp lastPressTime 1 = true
    · refine ⟨1, by simp [h3, h2, h1], h1, fun j hj => ?_⟩
      fin_cases j <;> first | decide | exact absurd hj h3 | exact absurd hj h2
    have h0 : btnAccepted bp lastPressTime 0 = true := by
      fin_cases i <;> first | exact hi | exact absurd hi h3 | exact absurd hi h2 | exact absurd hi h1
    refine ⟨0, by simp [h3, h2, h1, h0], h0, fun j hj => ?_⟩
    fin_cases j <;>
      first | decide | exact absurd hj h3 | exact absurd hj h2 | exact absurd hj h1
  · cases btnAccepted bp lastPressTime 0 <;> cases btnAccepted bp lastPressTime 1 <;>
      cases btnAccepted bp lastPressTime 2 <;> cases btnAccepted bp lastPressTime 3 <;> simp

/-! ## Button handling -/

/-- C2: at the input check, for an accepted press of button `p` (the scan
returned `p`): on a hit (`moleLEDs[p]` set) the score grows by exactly 1,
`moleLEDs[p]` becomes 0, LED `p` is switched off and every other flag and LED
is unchanged; on a miss (`moleLEDs[p]` clear) the score, the four flags and
the four LEDs are unchanged. -/
theorem press_hit_or_miss (s : State) (btn : BtnPoll) (p : Fin 4)
    (hp : (getPressedButton btn s.lastPressTime).1 = (p.val : Int)) :
    ∃ s1, buttonBlock btn s = .ok s1 ∧
      (s.moleLEDs p ≠ 0 →
        s1.score = s.score + 1 ∧ s1.moleLEDs p = 0 ∧ s1.ledOut p = GPIO_PIN_RESET ∧
        ∀ i, i ≠ p → s1.moleLEDs i = s.moleLEDs i ∧ s1.ledOut i = s.ledOut i) ∧
      (s.moleLEDs p = 0 →
        s1.score = s.score ∧ ∀ i, s1.moleLEDs i = s.moleLEDs i ∧ s1.ledOut i = s.ledOut i) := by
  have hne : (getPressedButton btn s.lastPressTime).1 ≠ -1 := by rw [hp]; omega
  unfold buttonBlock
  rw [if_pos hne, hp]
  unfold pressedBody
  rw [index4_val]
  refine ⟨_, rfl, ?_, ?_⟩
  · intro hhit
    simp only [hhit, ne_eq, not_false_eq_true, if_true]
    split_ifs <;> simp [uartPrint] <;> intro i hi <;> simp [Function.update_noteq hi]
  · intro hmiss
    simp only [hmiss, ne_eq, not_true_eq_false, if_false]
    split_ifs <;> simp [uartPrint]

/-- C2 at a concrete state: LED 1 is lit and button 1 is pressed at tick 305. -/
theorem press_hit_or_miss_witness :
    (getPressedButton ⟨305, ![GPIO_PIN_SET, GPIO_PIN_RESET, GPIO_PIN_SET, GPIO_PIN_SET]⟩
        ({ initState 0 0 with gameStarted := 1, moleLEDs := ![0, 1, 1, 0] } : State).lastPressTime).1
      = ((1 : Fin 4).val : Int) ∧
    ∃ s1, buttonBlock ⟨305, ![GPIO_PIN_SET, GPIO_PIN_RESET, GPIO_PIN_SET, GPIO_PIN_SET]⟩
        { initState 0 0 with gameStarted := 1, moleLEDs := ![0, 1, 1, 0] } = .ok s1 ∧
      ((![0, 1, 1, 0] : Fin 4 → Int) 1 ≠ 0 →
        s1.score = 0 + 1 ∧ s1.moleLEDs 1 = 0 ∧ s1.ledOut 1 = GPIO_PIN_RESET ∧
        ∀ i, i ≠ 1 → s1.moleLEDs i = (![0, 1, 1, 0] : Fin 4 → Int) i ∧
          s1.ledOut i = GPIO_PIN_RESET) ∧
      ((![0, 1, 1, 0] : Fin 4 → Int) 1 = 0 →
        s1.score = 0 ∧ ∀ i, s1.moleLEDs i = (![0, 1, 1, 0] : Fin 4 → Int) i ∧
          s1.ledOut i = GPIO_PIN_RESET) :=
  ⟨by decide, press_hit_or_miss
    { initState 0 0 with gameStarted := 1, moleLEDs := ![0, 1, 1, 0] }
    ⟨305, ![GPIO_PIN_SET, GPIO_PIN_RESET, GPIO_PIN_SET, GPIO_PIN_SET]⟩ 1 (by decide)⟩

/-! ## Stop and start -/

/-- C4: in a Playing state with score `S`, a pass in which `stopPressed()`
accepts the stop input ends with `gameStarted = 0`, all four flags 0, all four
LEDs off and `score = 0`; it sends exactly the stopped line with `S` followed
by the two lines of the Idle banner; `currentLevel`, `levelStartTick`,
`lastTick`, `lastPressTime`, `currentMoles` and `moleCount` are unchanged (no
level check, spawn or button poll). -/
theorem stop_while_playing (s : State) (inp : LoopInput) (hplay : s.gameStarted ≠ 0)
    (hstop : (stopPressed inp.stop s.lastStopTime).1 = 1) :
    ∃ s1, mainLoop inp s = .ok s1 ∧
      s1.gameStarted = 0 ∧ (∀ i, s1.moleLEDs i = 0) ∧ (∀ i, s1.ledOut i = GPIO_PIN_RESET) ∧
      s1.score = 0 ∧
      s1.uart = s.uart ++
        ["\r\nGame Stopped! Total Score=" ++ toString s.score ++ "\r\n",
         "==== Whack-a-Mole Game ====\r\n", "Press any play button to start!\r\n"] ∧
      s1.currentLevel = s.currentLevel ∧ s1.levelStartTick = s.levelStartTick ∧
      s1.lastTick = s.lastTick ∧ s1.lastPressTime = s.lastPressTime ∧
      s1.currentMoles = s.currentMoles ∧ s1.moleCount = s.moleCount := by
  unfold mainLoop
  simp only [hstop]
  rw [if_pos ⟨by decide, hplay⟩]
  refine ⟨_, rfl, ?_⟩
  simp [stopBlock, showStartPage, uartPrint, clearLEDs_eq]

/-- C4 at `examplePlaying` (score 7) with the stop pin high at tick 1000. -/
theorem stop_while_playing_witness :
    examplePlaying.gameStarted ≠ 0 ∧
    (stopPressed exampleStopInput.stop examplePlaying.lastStopTime).1 = 1 ∧
    ∃ s1, mainLoop exampleStopInput examplePlaying = .ok s1 ∧
      s1.gameStarted = 0 ∧ (∀ i, s1.moleLEDs i = 0) ∧ (∀ i, s1.ledOut i = GPIO_PIN_RESET) ∧
      s1.score = 0 ∧
      s1.uart = examplePlaying.uart ++
        ["\r\nGame Stopped! Total Score=" ++ toString examplePlaying.score ++ "\r\n",
         "==== Whack-a-Mole Game ====\r\n", "Press any play button to start!\r\n"] ∧
      s1.currentLevel = examplePlaying.currentLevel ∧
      s1.levelStartTick = examplePlaying.levelStartTick ∧
      s1.lastTick = examplePlaying.lastTick ∧
      s1.lastPressTime = examplePlaying.lastPressTime ∧
      s1.currentMoles = examplePlaying.currentMoles ∧
      s1.moleCount = examplePlaying.moleCount :=
  ⟨by decide, by decide, stop_while_playing examplePlaying exampleStopInput (by decide) (by decide)⟩

/-- C5: in an Idle state, the pass whose wait loop ends with an accepted
play-button press ends with `score = 0`, `currentLevel = 0`,
`levelStartTick = lastTick = now` (the tick sampled at the top of that pass),
`gameStarted = 1`, and sends exactly "Game Started! Level 1\n". -/
theorem start_by_play_button (s : State) (inp : LoopInput) (idx : Int)
    (lastPressTime : Fin 4 → Nat) (lastStopTime : Nat) (hidle : s.gameStarted = 0)
    (hwait : idleWait inp.wait s.lastPressTime (stopPressed inp.stop s.lastStopTime).2 =
      some (.playButton idx, lastPressTime, lastStopTime)) :
    ∃ s1, mainLoop inp s = .ok s1 ∧
      s1.score = 0 ∧ s1.currentLevel = 0 ∧ s1.levelStartTick = inp.now ∧
      s1.lastTick = inp.now ∧ s1.gameStarted = 1 ∧
      s1.uart = s.uart ++ ["Game Started! Level 1\n"] := by
  unfold mainLoop
  simp only [hidle, ne_eq, not_true_eq_false, and_false, if_false, if_true]
  unfold startBlock
  simp only [hwait]
  exact ⟨_, rfl, by simp [uartPrint]⟩

/-- C5 at the initial state: button 2 is pressed at tick 300 during the wait of
a pass whose tick is 200. -/
theorem start_by_play_button_witness :
    (initState 0 0).gameStarted = 0 ∧
    idleWait exampleIdlePlayInput.wait (initState 0 0).lastPressTime
        (stopPressed exampleIdlePlayInput.stop (initState 0 0).lastStopTime).2 =
      some (.playButton 2, Function.update (fun _ => 0) 2 300, 0) ∧
    ∃ s1, mainLoop exampleIdlePlayInput (initState 0 0) = .ok s1 ∧
      s1.score = 0 ∧ s1.currentLevel = 0 ∧ s1.levelStartTick = 200 ∧
      s1.lastTick = 200 ∧ s1.gameStarted = 1 ∧
      s1.uart = (initState 0 0).uart ++ ["Game Started! Level 1\n"] :=
  ⟨rfl, by decide,
    start_by_play_button (initState 0 0) exampleIdlePlayInput 2
      (Function.update (fun _ => 0) 2 300) 0 rfl (by decide)⟩

/-- C6 as stated fails: from the initial (Idle) state, a wait loop that ends
on an accepted stop press (no play button pressed) is followed by the start of
a game: `gameStarted` is 1 after the pass and "Game Started! Level 1\n" is
sent. -/
theorem idle_stop_press_starts_game :
    (initState 0 0).gameStarted = 0 ∧
    (idleWait exampleIdleStopInput.wait (initState 0 0).lastPressTime
        (stopPressed exampleIdleStopInput.stop (initState 0 0).lastStopTime).2).map
      (fun r => r.1) = some WaitExit.stopButton ∧
    (mainLoop exampleIdleStopInput (initState 0 0)).toOption.map
      (fun s1 => (s1.gameStarted, s1.uart)) =
      some (1, ["==== Whack-a-Mole Game ====\r\n", "Press any play button to start!\r\n",
                "Game Started! Level 1\n"]) := by
  decide

/-- C6, amended: in an Idle state, when the wait loop ends because
`stopPressed()` accepted a stop press while no play button was accepted, the
game is started all the same: after that pass `gameStarted = 1`, `score = 0`,
`currentLevel = 0`, `levelStartTick = lastTick = now`, and exactly
"Game Started! Level 1\n" is sent. -/
theorem start_by_stop_button (s : State) (inp : LoopInput)
    (lastPressTime : Fin 4 → Nat) (lastStopTime : Nat) (hidle : s.gameStarted = 0)
    (hwait : idleWait inp.wait s.lastPressTime (stopPressed inp.stop s.lastStopTime).2 =
      some (.stopButton, lastPressTime, lastStopTime)) :
    ∃ s1, mainLoop inp s = .ok s1 ∧
      s1.gameStarted = 1 ∧ s1.uart = s.uart ++ ["Game Started! Level 1\n"] ∧
      s1.score = 0 ∧ s1.currentLevel = 0 ∧ s1.levelStartTick = inp.now ∧
      s1.lastTick = inp.now := by
  unfold mainLoop
  simp only [hidle, ne_eq, not_true_eq_false, and_false, if_false, if_true]
  unfold startBlock
  simp only [hwait]
  exact ⟨_, rfl, by simp [uartPrint]⟩

/-- C6 amended, at the initial state with the stop pin high at tick 300 during
the wait. -/
theorem start_by_stop_button_witness :
    (initState 0 0).gameStarted = 0 ∧
    idleWait exampleIdleStopInput.wait (initState 0 0).lastPressTime
        (stopPressed exampleIdleStopInput.stop (initState 0 0).lastStopTime).2 =
      some (.stopButton, fun _ => 0, 300) ∧
    ∃ s1, mainLoop exampleIdleStopInput (initState 0 0) = .ok s1 ∧
      s1.gameStarted = 1 ∧ s1.uart = (initState 0 0).uart ++ ["Game Started! Level 1\n"] ∧
      s1.score = 0 ∧ s1.currentLevel = 0 ∧ s1.levelStartTick = 200 ∧
      s1.lastTick = 200 :=
  ⟨rfl, by decide,
    start_by_stop_button (initState 0 0) exampleIdleStopInput (fun _ => 0) 300 rfl
      (by decide)⟩

theorem levelBlock_stay (now : Nat) (s : State) (lv : Level)
    (hlv : levels s.currentLevel = some lv)
    (hexp : ¬ sub32 now s.levelStartTick ≥ lv.duration) :
    levelBlock now s = .ok (false, s) := by
  unfold levelBlock
  rw [hlv]
  simp only [hexp, if_false]

theorem levelBlock_next (now : Nat) (s : State) (lv : Level)
    (hlv : levels s.currentLevel = some lv)
    (hexp : sub32 now s.levelStartTick ≥ lv.duration) (hlast : ¬ s.currentLevel + 1 ≥ 3) :
    levelBlock now s =
      .ok (false, nextLevelBlock now { s with currentLevel := s.currentLevel + 1 }) := by
  unfold levelBlock
  rw [hlv]
  simp only [hexp, hlast, if_false, if_true]

theorem levelBlock_finish (now : Nat) (s : State) (lv : Level)
    (hlv : levels s.currentLevel = some lv)
    (hexp : sub32 now s.levelStartTick ≥ lv.duration) (hlast : s.currentLevel + 1 ≥ 3) :
    levelBlock now s =
      .ok (true, finishBlock { s with currentLevel := s.currentLevel + 1 }) := by
  unfold levelBlock
  rw [hlv]
  simp only [hexp, hlast, if_true]

/-- C3: in a pass that starts in Playing (game flag set, `currentLevel` an
index of the levels table) and does not accept a stop press, on `rand()`
values that do not block the spawn: `currentLevel` is unchanged when the expiry
test `now - levelStartTick >= duration` is false and exactly the old value
plus 1 when it is true, it never decreases, and the pass ends in Idle
(`gameStarted = 0`) if and only if the expiry test is true and the old
`currentLevel` is 2. -/
theorem level_progression (s : State) (inp : LoopInput) (lv : Level)
    (hplay : s.gameStarted ≠ 0) (hlv : levels s.currentLevel = some lv)
    (hstop : (stopPressed inp.stop s.lastStopTime).1 = 0)
    (hterm : isBlocked (mainLoop inp s) = false) :
    ∃ s1, mainLoop inp s = .ok s1 ∧
      (¬ sub32 inp.now s.levelStartTick ≥ lv.duration → s1.currentLevel = s.currentLevel) ∧
      (sub32 inp.now s.levelStartTick ≥ lv.duration → s1.currentLevel = s.currentLevel + 1) ∧
      s.currentLevel ≤ s1.currentLevel ∧
      (s1.gameStarted = 0 ↔
        sub32 inp.now s.levelStartTick ≥ lv.duration ∧ s.currentLevel = 2) := by
  rw [mainLoop_playing inp s hplay hstop] at hterm ⊢
  obtain ⟨hrange, -⟩ := levels_some s.currentLevel lv hlv
  unfold playBlock at hterm ⊢
  by_cases hexp : sub32 inp.now s.levelStartTick ≥ lv.duration
  · by_cases hlast : s.currentLevel + 1 ≥ 3
    · rw [levelBlock_finish inp.now s lv hlv hexp hlast] at hterm ⊢
      have hc : (finishBlock { s with currentLevel := s.currentLevel + 1 }).currentLevel =
          s.currentLevel + 1 := by
        simp [finishBlock, showStartPage, uartPrint, clearLEDs_eq]
      have hg : (finishBlock { s with currentLevel := s.currentLevel + 1 }).gameStarted = 0 := by
        simp [finishBlock, showStartPage, uartPrint, clearLEDs_eq]
      refine ⟨_, rfl, fun h => absurd hexp h, fun _ => hc, by rw [hc]; omega, ?_⟩
      exact ⟨fun _ => ⟨hexp, by omega⟩, fun _ => hg⟩
    · rw [levelBlock_next inp.now s lv hlv hexp hlast] at hterm ⊢
      obtain ⟨lv1, hlv1⟩ := levels_isSome (s.currentLevel + 1) (by omega) (by omega)
      obtain ⟨s2, h, h1, h2, -⟩ := spawnAndPress_spec inp
        (nextLevelBlock inp.now { s with currentLevel := s.currentLevel + 1 }) lv1 hlv1 hterm
      refine ⟨s2, h, fun hn => absurd hexp hn, fun _ => h2, ?_, ?_⟩
      · rw [h2]
        simp [nextLevelBlock, uartPrint]
      · rw [h1]
        simp only [nextLevelBlock, uartPrint]
        constructor
        · intro hc
          exact absurd hc hplay
        · rintro ⟨-, hc⟩
          omega
  · rw [levelBlock_stay inp.now s lv hlv hexp] at hterm ⊢
    obtain ⟨s2, h, h1, h2, -⟩ := spawnAndPress_spec inp s lv hlv hterm
    refine ⟨s2, h, fun _ => h2, fun hc => absurd hc hexp, by rw [h2], ?_⟩
    rw [h1]
    constructor
    · intro hc
      exact absurd hc hplay
    · rintro ⟨hc, -⟩
      exact absurd hc hexp

/-- C3 at `examplePlaying` (level index 0 since tick 200) with a pass at tick
70000: the expiry test is true. -/
theorem level_progression_witness :
    examplePlaying.gameStarted ≠ 0 ∧ levels examplePlaying.currentLevel = some ⟨5000, 60000⟩ ∧
    (stopPressed (examplePlayInput 70000).stop examplePlaying.lastStopTime).1 = 0 ∧
    isBlocked (mainLoop (examplePlayInput 70000) examplePlaying) = false ∧
    ∃ s1, mainLoop (examplePlayInput 70000) examplePlaying = .ok s1 ∧
      (¬ sub32 70000 200 ≥ 60000 → s1.currentLevel = 0) ∧
      (sub32 70000 200 ≥ 60000 → s1.currentLevel = 0 + 1) ∧
      0 ≤ s1.currentLevel ∧
      (s1.gameStarted = 0 ↔ sub32 70000 200 ≥ 60000 ∧ (0 : Int) = 2) :=
  ⟨by decide, rfl, by decide, by decide,
    level_progression examplePlaying (examplePlayInput 70000) ⟨5000, 60000⟩
      (by decide) rfl (by decide) (by decide)⟩

/-- The body of `if(pressed != -1)` on a hit, with the text of the line left
open. -/
theorem pressedBody_hit (p : Fin 4) (s : State) (hhit : s.moleLEDs p ≠ 0) :
    ∃ msg : String, pressedBody (p.val : Int) s =
      .ok (if allCleared (uartPrint msg
              { s with ledOut := Function.update s.ledOut p GPIO_PIN_RESET,
                       moleLEDs := Function.update s.moleLEDs p 0,
                       score := s.score + 1 }) ≠ 0
           then { uartPrint msg
              { s with ledOut := Function.update s.ledOut p GPIO_PIN_RESET,
                       moleLEDs := Function.update s.moleLEDs p 0,
                       score := s.score + 1 } with lastTick := 0 }
           else uartPrint msg
              { s with ledOut := Function.update s.ledOut p GPIO_PIN_RESET,
                       moleLEDs := Function.update s.moleLEDs p 0,
                       score := s.score + 1 }) := by
  unfold pressedBody
  rw [index4_val]
  simp only [hhit, ne_eq, not_false_eq_true, if_true]
  exact ⟨_, rfl⟩

/-- A hit that empties the board: the score has grown by 1 and `lastTick`
holds the value 0 written by line 218. -/
theorem buttonBlock_clearing_hit (s : State) (btn : BtnPoll) (p : Fin 4) (s1 : State)
    (hp : (getPressedButton btn s.lastPressTime).1 = (p.val : Int))
    (hhit : s.moleLEDs p ≠ 0) (hs1 : buttonBlock btn s = .ok s1)
    (hclear : ∀ i, s1.moleLEDs i = 0) :
    s1.score = s.score + 1 ∧ s1.lastTick = 0 := by
  have hne : (getPressedButton btn s.lastPressTime).1 ≠ -1 := by rw [hp]; omega
  unfold buttonBlock at hs1
  rw [if_pos hne, hp] at hs1
  obtain ⟨msg, hmsg⟩ := pressedBody_hit p
    { s with lastPressTime := (getPressedButton btn s.lastPressTime).2 } hhit
  rw [hmsg] at hs1
  by_cases hall : allCleared (uartPrint msg
      { s with lastPressTime := (getPressedButton btn s.lastPressTime).2,
               ledOut := Function.update s.ledOut p GPIO_PIN_RESET,
               moleLEDs := Function.update s.moleLEDs p 0,
               score := s.score + 1 }) ≠ 0
  · rw [if_pos hall] at hs1
    cases hs1
    exact ⟨rfl, rfl⟩
  · rw [if_neg hall] at hs1
    cases hs1
    exact absurd ((allCleared_ne_zero_iff _).2 hclear) hall

/-- C10: when an accepted press in a Playing state is a hit that leaves all
four flags 0 (the score has grown by 1 and `lastTick` holds 0), the next pass
that does not accept a stop press and whose level progression does not finish
the game, given `rand()` values that are enough for the selection to end
(`enoughRands`), returns and runs the body of the spawn `if`: it lights at
least one LED and sets `lastTick` to the tick `now` of that pass, before the
button block runs.  This holds for every `now` and every level. -/
theorem respawn_after_board_cleared (s : State) (btn : BtnPoll) (p : Fin 4) (s1 : State)
    (inp : LoopInput) (sl : State)
    (hplay : s.gameStarted ≠ 0)
    (hp : (getPressedButton btn s.lastPressTime).1 = (p.val : Int))
    (hhit : s.moleLEDs p ≠ 0)
    (hs1 : buttonBlock btn s = .ok s1)
    (hclear : ∀ i, s1.moleLEDs i = 0)
    (hstop : (stopPressed inp.stop s1.lastStopTime).1 = 0)
    (hlevel : levelBlock inp.now s1 = .ok (false, sl))
    (henough : enoughRands inp.rands = true) :
    s1.score = s.score + 1 ∧ s1.lastTick = 0 ∧
    ∃ sm, spawnBlock inp.now inp.rands sl = .ok sm ∧
      spawnBody inp.now inp.rands sl = .ok sm ∧
      sm.lastTick = inp.now ∧
      (∃ j : Fin 4, sm.moleLEDs j = 1 ∧ sm.ledOut j = GPIO_PIN_SET) ∧
      mainLoop inp s1 = buttonBlock inp.btn sm ∧
      ∃ s2, mainLoop inp s1 = .ok s2 := by
  obtain ⟨hscore, hzero⟩ := buttonBlock_clearing_hit s btn p s1 hp hhit hs1 hclear
  refine ⟨hscore, hzero, ?_⟩
  obtain ⟨sb, hsb, hg, -⟩ := buttonBlock_spec btn s
  rw [hs1] at hsb
  cases hsb
  have hplay1 : s1.gameStarted ≠ 0 := by rw [hg]; exact hplay
  have hmain : mainLoop inp s1 = spawnAndPress inp sl := by
    rw [mainLoop_playing inp s1 hplay1 hstop]
    unfold playBlock
    rw [hlevel]
  have hboard : ∀ i, sl.moleLEDs i = 0 := by
    unfold levelBlock at hlevel
    split at hlevel
    · simp at hlevel
    · split_ifs at hlevel <;> simp at hlevel <;> subst hlevel <;>
        simpa [nextLevelBlock, uartPrint] using hclear
  have hany : anyActive sl = 0 := (anyActive_eq_zero_iff sl).2 hboard
  have hblock : spawnBlock inp.now inp.rands sl = spawnBody inp.now inp.rands sl := by
    unfold spawnBlock
    rw [if_pos hany]
  have hsp : isBlocked (spawnBody inp.now inp.rands sl) = false :=
    spawnBody_total inp.now inp.rands sl henough
  obtain ⟨sm, hsm, hlast, -, -, -, -, -, -, hlit, -⟩ := spawnBody_spec inp.now inp.rands sl hsp
  have hpass : mainLoop inp s1 = buttonBlock inp.btn sm := by
    rw [hmain]
    unfold spawnAndPress
    rw [hblock, hsm]
  obtain ⟨s2, hs2, -⟩ := buttonBlock_spec inp.btn sm
  exact ⟨sm, by rw [hblock, hsm], hsm, hlast, hlit, hpass, s2, by rw [hpass, hs2]⟩

/-- C10 at `exampleOneMole`: button 1 hits the only lit LED at tick 305; the
next pass is at tick 400, well inside the 5000 ms interval. -/
theorem respawn_after_board_cleared_witness :
    exampleOneMole.gameStarted ≠ 0 ∧
    (getPressedButton examplePressOne exampleOneMole.lastPressTime).1 = ((1 : Fin 4).val : Int) ∧
    exampleOneMole.moleLEDs 1 ≠ 0 ∧
    buttonBlock examplePressOne exampleOneMole = .ok exampleCleared ∧
    (∀ i, exampleCleared.moleLEDs i = 0) ∧
    (stopPressed (examplePlayInput 400).stop exampleCleared.lastStopTime).1 = 0 ∧
    levelBlock 400 exampleCleared = .ok (false, exampleCleared) ∧
    enoughRands (examplePlayInput 400).rands = true ∧
    sub32 400 exampleCleared.lastTick < 5000 ∧
    exampleCleared.score = exampleOneMole.score + 1 ∧ exampleCleared.lastTick = 0 ∧
    ∃ sm, spawnBlock 400 [7, 2, 6, 1] exampleCleared = .ok sm ∧
      spawnBody 400 [7, 2, 6, 1] exampleCleared = .ok sm ∧
      sm.lastTick = 400 ∧
      (∃ j : Fin 4, sm.moleLEDs j = 1 ∧ sm.ledOut j = GPIO_PIN_SET) ∧
      mainLoop (examplePlayInput 400) exampleCleared =
        buttonBlock (examplePlayInput 400).btn sm ∧
      ∃ s2, mainLoop (examplePlayInput 400) exampleCleared = .ok s2 :=
  ⟨by decide, by decide, by decide, rfl, by decide, by decide, rfl, by decide, by decide,
    respawn_after_board_cleared exampleOneMole examplePressOne 1 exampleCleared
      (examplePlayInput 400) exampleCleared (by decide) (by decide) (by decide) rfl
      (by decide) (by decide) rfl (by decide)⟩

/-! ## Sequences of polls -/

theorem step_stamp (q : Poll) (d : Debounce) (b : Button) :
    (q.step d).stamp b = if q.accepts d b then q.tick else d.stamp b := by
  cases q with
  | buttons p =>
    cases b with
    | play i =>
      simp only [Poll.step, Debounce.stamp, Poll.accepts, Poll.tick, getPressedButton_eq]
    | stop => simp [Poll.step, Debounce.stamp, Poll.accepts]
  | stop p =>
    cases b with
    | play i => simp [Poll.step, Debounce.stamp, Poll.accepts]
    | stop =>
      simp only [Poll.step, Debounce.stamp, Poll.accepts, Poll.tick, stopPressed]
      split_ifs <;> simp_all

theorem accepts_gap (q : Poll) (d : Debounce) (b : Button) (h : q.accepts d b = true) :
    sub32 q.tick (d.stamp b) > 50 := by
  cases q with
  | buttons p =>
    cases b with
    | play i =>
      simp only [Poll.accepts, btnAccepted_iff, DEBOUNCE_MS] at h
      exact h.2
    | stop => simp [Poll.accepts] at h
  | stop p =>
    cases b with
    | play i => simp [Poll.accepts] at h
    | stop =>
      simp only [Poll.accepts, stopPressed, DEBOUNCE_MS, Poll.tick, Debounce.stamp] at h ⊢
      split_ifs at h with h1 h2
      · exact h2
      · simp at h
      · simp at h

/-- On polls at non-decreasing, non-wrapping ticks that are not before the
stored timestamp of `b`, every accepted tick is more than 50 after it. -/
theorem acceptedTicks_after_stamp (b : Button) : ∀ (qs : List Poll) (d : Debounce),
    qs.Pairwise (fun q1 q2 => q1.tick ≤ q2.tick) →
    (∀ q ∈ qs, d.stamp b ≤ q.tick ∧ q.tick < 4294967296) →
    ∀ t ∈ acceptedTicks b d qs, d.stamp b + 50 < t := by
  intro qs
  induction qs with
  | nil => intro d _ _ t ht; simp [acceptedTicks] at ht
  | cons q qs ih =>
    intro d hmono hrange t ht
    rw [List.pairwise_cons] at hmono
    obtain ⟨hq0, hq1⟩ := hrange q (List.mem_cons_self _ _)
    have hhead : q.accepts d b = true → d.stamp b + 50 < q.tick := by
      intro hacc
      have := accepts_gap q d b hacc
      unfold sub32 at this
      omega
    simp only [acceptedTicks, List.mem_append] at ht
    rcases ht with ht | ht
    · by_cases hacc : q.accepts d b = true
      · simp only [hacc, if_true, List.mem_singleton] at ht
        rw [ht]
        exact hhead hacc
      · simp [hacc] at ht
    · have hst := step_stamp q d b
      have hle : d.stamp b ≤ (q.step d).stamp b := by
        rw [hst]
        split_ifs with hacc
        · exact hq0
        · exact le_refl _
      have := ih (q.step d) hmono.2 (fun q1 hq1mem => by
        refine ⟨?_, (hrange q1 (List.mem_cons_of_mem _ hq1mem)).2⟩
        rw [hst]
        split_ifs with hacc
        · exact hmono.1 q1 hq1mem
        · exact (hrange q1 (List.mem_cons_of_mem _ hq1mem)).1) t ht
      omega

/-- C8: over every finite sequence of polls (`getPressedButton` and
`stopPressed`, in any order) at non-decreasing ticks that do not wrap, with
arbitrary pin readings and from arbitrary timestamps, the ticks of any two
polls that accepted a press of the same button are at least 50 ms apart. -/
theorem accepted_presses_50ms_apart (b : Button) (d : Debounce) (qs : List Poll)
    (hmono : qs.Pairwise (fun q1 q2 => q1.tick ≤ q2.tick))
    (hnowrap : ∀ q ∈ qs, q.tick < 4294967296) :
    (acceptedTicks b d qs).Pairwise (fun t1 t2 => t1 + 50 ≤ t2) := by
  induction qs generalizing d with
  | nil => simp [acceptedTicks]
  | cons q qs ih =>
    rw [List.pairwise_cons] at hmono
    simp only [acceptedTicks]
    rw [List.pairwise_append]
    refine ⟨?_, ih (q.step d) hmono.2 (fun q1 h => hnowrap q1 (List.mem_cons_of_mem _ h)), ?_⟩
    · split_ifs <;> simp
    · intro t1 ht1 t2 ht2
      by_cases hacc : q.accepts d b = true
      · simp only [hacc, if_true, List.mem_singleton] at ht1
        have hst : (q.step d).stamp b = q.tick := by rw [step_stamp, if_pos hacc]
        have := acceptedTicks_after_stamp b qs (q.step d) hmono.2 (fun q1 h => by
          rw [hst]
          exact ⟨hmono.1 q1 h, hnowrap q1 (List.mem_cons_of_mem _ h)⟩) t2 ht2
        rw [hst] at this
        omega
      · simp [hacc] at ht1

/-- C8 at `examplePolls`: button 0, held low at ticks 100, 120, 150 and 151
from timestamp 0, is accepted at 100 and at 151 only. -/
theorem accepted_presses_50ms_apart_witness :
    examplePolls.Pairwise (fun q1 q2 => q1.tick ≤ q2.tick) ∧
    (∀ q ∈ examplePolls, q.tick < 4294967296) ∧
    acceptedTicks (.play 0) ⟨fun _ => 0, 0⟩ examplePolls = [100, 151] ∧
    (acceptedTicks (.play 0) ⟨fun _ => 0, 0⟩ examplePolls).Pairwise
      (fun t1 t2 => t1 + 50 ≤ t2) :=
  ⟨by decide, by decide, by decide,
    accepted_presses_50ms_apart (.play 0) ⟨fun _ => 0, 0⟩ examplePolls (by decide) (by decide)⟩

/-! ## The spawn step in full -/

theorem moleList_one (cm : Fin 3 → Int) : moleList cm 1 = [cm 0] := by
  simp [moleList, finRange_three, List.filter]

theorem moleList_two (cm : Fin 3 → Int) : moleList cm 2 = [cm 0, cm 1] := by
  simp [moleList, finRange_three, List.filter]

theorem moleList_three (cm : Fin 3 → Int) : moleList cm 3 = [cm 0, cm 1, cm 2] := by
  simp [moleList, finRange_three, List.filter]

theorem moleLabels_eq (leds : Fin 3 → Int) (count : Int)
    (hcount : count = 1 ∨ count = 2 ∨ count = 3) :
    moleLabels leds count.toNat 0 =
      (moleList leds count).map (fun l => " " ++ toString (l + 1)) := by
  rcases hcount with hc | hc | hc <;> subst hc
  · rw [moleList_one]; rfl
  · rw [moleList_two]; rfl
  · rw [moleList_three]; rfl

/-- Transcript of the loop of `showMoleSet`. -/
theorem showMoleSetLoop_uart (leds : Fin 3 → Int) (n : Nat) : ∀ (i : Nat) (s s1 : State),
    showMoleSetLoop leds n i s = .ok s1 → s1.uart = s.uart ++ moleLabels leds n i := by
  induction n with
  | zero =>
    intro i s s1 h
    simp only [showMoleSetLoop, Except.ok.injEq] at h
    subst h
    simp [moleLabels]
  | succ n ih =>
    intro i s s1 h
    unfold showMoleSetLoop at h
    by_cases hi : i < 3
    · rw [dif_pos hi] at h
      cases hl : index4 (leds ⟨i, hi⟩) with
      | none => simp [hl] at h
      | some l =>
        simp only [hl] at h
        have := ih (i + 1) _ s1 h
        rw [this]
        simp [moleLabels, hi, uartPrint]
    · rw [dif_neg hi] at h
      simp at h

/-- The body of the spawn `if` in full: `moleCount` and `currentMoles` hold the
selection, exactly the selected LEDs are lit and flagged, every other LED is
off with its flag 0, and the transcript gains the mole line. -/
theorem spawnBody_full (now : Nat) (rands : List Nat) (s : State)
    (hterm : isBlocked (spawnBody now rands s) = false) :
    ∃ s1, spawnBody now rands s = .ok s1 ∧
      (s1.moleCount = 1 ∨ s1.moleCount = 2 ∨ s1.moleCount = 3) ∧
      validMoles s1.currentMoles s1.moleCount.toNat ∧
      (∀ j : Fin 4,
        (∃ k : Fin 3, (k.val : Int) < s1.moleCount ∧ s1.currentMoles k = (j.val : Int)) →
        s1.moleLEDs j = 1 ∧ s1.ledOut j = GPIO_PIN_SET) ∧
      (∀ j : Fin 4,
        (¬ ∃ k : Fin 3, (k.val : Int) < s1.moleCount ∧ s1.currentMoles k = (j.val : Int)) →
        s1.moleLEDs j = 0 ∧ s1.ledOut j = GPIO_PIN_RESET) ∧
      s1.uart = s.uart ++ ["\r\nMole popped on LED(s):"] ++
        (moleList s1.currentMoles s1.moleCount).map (fun l => " " ++ toString (l + 1)) ++
        ["\r\n"] := by
  have hcm : isBlocked (chooseMoles s.currentMoles rands) = false := by
    cases hc : chooseMoles s.currentMoles rands with
    | error e =>
      unfold spawnBody at hterm
      rw [hc] at hterm
      cases e with
      | outOfBounds => rfl
      | blocked => simp [isBlocked] at hterm
    | ok r => rfl
  obtain ⟨moleCount, cm1, rest, hok, hcount, hv⟩ := chooseMoles_valid s.currentMoles rands hcm
  have hrange : ∀ j : Fin 3, (j.val : Int) < moleCount → 0 ≤ cm1 j ∧ cm1 j < 4 :=
    fun j hj => hv.1 j (by omega)
  obtain ⟨s1, hs1, hb, hset, hkeep⟩ := showMoleSetLoop_spec cm1 moleCount.toNat 0
    (uartPrint "\r\nMole popped on LED(s):"
      (clearLEDs { s with moleCount := moleCount, currentMoles := cm1 }))
    (by omega) (fun k _ h2 => hrange k (by omega))
  have hu := showMoleSetLoop_uart cm1 moleCount.toNat 0 _ s1 hs1
  rw [moleLabels_eq cm1 moleCount hcount] at hu
  obtain ⟨-, -, -, -, -, -, -, b8, b9⟩ := hb
  simp only [uartPrint, clearLEDs_eq] at b8 b9 hset hkeep hu
  refine ⟨{ uartPrint "\r\n" s1 with lastTick := now }, ?_, ?_, ?_, ?_, ?_, ?_⟩
  · unfold spawnBody
    rw [hok]
    simp only [showMoleSet, hs1]
  · simpa [uartPrint, b9] using hcount
  · simpa [uartPrint, b8, b9] using hv
  · rintro j ⟨k, hk, hkj⟩
    simp only [uartPrint, b8, b9] at hk hkj ⊢
    exact hset j ⟨k, Nat.zero_le _, by omega, hkj⟩
  · intro j hj
    simp only [uartPrint, b8, b9] at hj ⊢
    apply hkeep j
    rintro ⟨k, -, hk, hkj⟩
    exact hj ⟨k, by omega, hkj⟩
  · simp only [uartPrint, b8, b9, hu]

theorem moleList_props (cm : Fin 3 → Int) (count : Int)
    (hcount : count = 1 ∨ count = 2 ∨ count = 3) (hv : validMoles cm count.toNat) :
    (moleList cm count).length = count.toNat ∧ (moleList cm count).Nodup ∧
      ∀ l ∈ moleList cm count, 0 ≤ l ∧ l < 4 := by
  obtain ⟨hr, hd⟩ := hv
  rcases hcount with hc | hc | hc <;> subst hc
  · rw [moleList_one]
    have e : (1 : Int).toNat = 1 := rfl
    rw [e] at hr
    refine ⟨rfl, by simp, ?_⟩
    intro l hl
    simp only [List.mem_singleton] at hl
    subst hl
    exact hr 0 (by decide)
  · rw [moleList_two]
    have e : (2 : Int).toNat = 2 := rfl
    rw [e] at hr hd
    refine ⟨rfl, ?_, ?_⟩
    · simp only [List.nodup_cons, List.mem_singleton, List.not_mem_nil, not_false_eq_true,
        List.nodup_nil, and_true]
      exact hd 0 1 (by decide) (by decide) (by decide)
    · intro l hl
      simp only [List.mem_cons, List.mem_singleton, List.not_mem_nil, or_false] at hl
      rcases hl with hl | hl <;> subst hl
      · exact hr 0 (by decide)
      · exact hr 1 (by decide)
  · rw [moleList_three]
    have e : (3 : Int).toNat = 3 := rfl
    rw [e] at hr hd
    refine ⟨rfl, ?_, ?_⟩
    · simp only [List.nodup_cons, List.mem_cons, List.mem_singleton, List.not_mem_nil,
        not_false_eq_true, List.nodup_nil, and_true, not_or, or_false]
      exact ⟨⟨hd 0 1 (by decide) (by decide) (by decide),
        hd 0 2 (by decide) (by decide) (by decide)⟩,
        hd 1 2 (by decide) (by decide) (by decide)⟩
    · intro l hl
      simp only [List.mem_cons, List.mem_singleton, List.not_mem_nil, or_false] at hl
      rcases hl with hl | hl | hl <;> subst hl
      · exact hr 0 (by decide)
      · exact hr 1 (by decide)
      · exact hr 2 (by decide)

/-- The level block leaves the board. -/
theorem levelBlock_board (now : Nat) (s sl : State) (h : levelBlock now s = .ok (false, sl)) :
    sl.moleLEDs = s.moleLEDs ∧ sl.ledOut = s.ledOut ∧ sl.gameStarted = s.gameStarted ∧
      sl.score = s.score ∧ sl.lastPressTime = s.lastPressTime ∧
      (sl.uart = s.uart ∨
        sl.uart = s.uart ++ ["\r\nStarting Level " ++ toString (s.currentLevel + 1 + 1) ++
          "!\r\n"]) := by
  unfold levelBlock at h
  split at h
  · simp at h
  · split_ifs at h <;> simp at h <;> subst h <;> simp [nextLevelBlock, uartPrint]

/-- A Playing pass that rejects the stop poll, does not finish the game and
finds the board empty runs the body of the spawn `if`. -/
theorem pass_spawns_on_empty_board (inp : LoopInput) (s1 sl : State)
    (hplay : s1.gameStarted ≠ 0) (hstop : (stopPressed inp.stop s1.lastStopTime).1 = 0)
    (hlevel : levelBlock inp.now s1 = .ok (false, sl)) (hclear : ∀ i, s1.moleLEDs i = 0) :
    spawnBlock inp.now inp.rands sl = spawnBody inp.now inp.rands sl ∧
      mainLoop inp s1 = spawnAndPress inp sl := by
  have hmain : mainLoop inp s1 = spawnAndPress inp sl := by
    rw [mainLoop_playing inp s1 hplay hstop]
    unfold playBlock
    rw [hlevel]
  have hboard : ∀ i, sl.moleLEDs i = 0 := by
    intro i
    rw [(levelBlock_board inp.now s1 sl hlevel).1]
    exact hclear i
  have hblock : spawnBlock inp.now inp.rands sl = spawnBody inp.now inp.rands sl := by
    unfold spawnBlock
    rw [if_pos ((anyActive_eq_zero_iff sl).2 hboard)]
  exact ⟨hblock, hmain⟩

/-! ## Start of a game and first moles -/

/-- C11 as stated fails: from the initial (Idle) state, the pass that starts
the game (button 2 pressed during the wait) sends "Game Started! Level 1\n"
and nothing else; no mole line is sent in that pass. -/
theorem start_pass_sends_no_mole_line :
    (initState 0 0).gameStarted = 0 ∧
    (mainLoop exampleIdlePlayInput (initState 0 0)).toOption.map (fun s1 => s1.uart) =
      some ((initState 0 0).uart ++ ["Game Started! Level 1\n"]) ∧
    (mainLoop exampleIdlePlayInput (initState 0 0)).toOption.map
      (fun s1 => decide ("\r\nMole popped on LED(s):" ∈ s1.uart)) = some false := by
  decide

/-- C11, amended: from an Idle state with an empty board, the pass that
starts the game sends exactly "Game Started! Level 1\n" and no mole line (it
ends with `continue`).  The mole line comes in the next pass that does not
accept a stop press, given `rand()` values that are enough for the selection
to end (`enoughRands`): that pass returns, and after the level block (which
sends nothing, or "\r\nStarting Level 2!\r\n" when level 1 has expired) it
sends "\r\nMole popped on LED(s):", then a blank and the 1-based number for
each of between 1 and 3 distinct LEDs, then "\r\n", before it polls the
buttons. -/
theorem moles_pop_in_pass_after_start (s s1 : State) (inp inp2 : LoopInput)
    (hidle : s.gameStarted = 0) (hboard : ∀ i, s.moleLEDs i = 0)
    (hstart : mainLoop inp s = .ok s1)
    (hstop : (stopPressed inp2.stop s1.lastStopTime).1 = 0)
    (henough : enoughRands inp2.rands = true) :
    s1.uart = s.uart ++ ["Game Started! Level 1\n"] ∧
    (∃ s2, mainLoop inp2 s1 = .ok s2) ∧
    ∃ sl sm, levelBlock inp2.now s1 = .ok (false, sl) ∧
      (sl.uart = s1.uart ∨ sl.uart = s1.uart ++ ["\r\nStarting Level 2!\r\n"]) ∧
      spawnBlock inp2.now inp2.rands sl = .ok sm ∧
      mainLoop inp2 s1 = buttonBlock inp2.btn sm ∧
      sm.uart = sl.uart ++ ["\r\nMole popped on LED(s):"] ++
        (moleList sm.currentMoles sm.moleCount).map (fun l => " " ++ toString (l + 1)) ++
        ["\r\n"] ∧
      (1 ≤ (moleList sm.currentMoles sm.moleCount).length ∧
        (moleList sm.currentMoles sm.moleCount).length ≤ 3) ∧
      (moleList sm.currentMoles sm.moleCount).Nodup ∧
      ∀ l ∈ moleList sm.currentMoles sm.moleCount, 1 ≤ l + 1 ∧ l + 1 ≤ 4 := by
  -- the start pass
  have hs1 : s1.uart = s.uart ++ ["Game Started! Level 1\n"] ∧ s1.gameStarted = 1 ∧
      s1.currentLevel = 0 ∧ s1.moleLEDs = s.moleLEDs := by
    unfold mainLoop at hstart
    simp only [hidle, ne_eq, not_true_eq_false, and_false, if_false, if_true] at hstart
    unfold startBlock at hstart
    split at hstart
    · simp at hstart
    · simp only [Except.ok.injEq] at hstart
      subst hstart
      simp [uartPrint]
  obtain ⟨hu1, hg1, hl1, hm1⟩ := hs1
  have hplay : s1.gameStarted ≠ 0 := by rw [hg1]; decide
  have hlv : levels s1.currentLevel = some ⟨5000, 60000⟩ := by rw [hl1]; rfl
  have hclear : ∀ i, s1.moleLEDs i = 0 := by rw [hm1]; exact hboard
  -- the level block of the next pass does not finish the game
  obtain ⟨sl, hsl⟩ : ∃ sl, levelBlock inp2.now s1 = .ok (false, sl) := by
    by_cases hexp : sub32 inp2.now s1.levelStartTick ≥ (⟨5000, 60000⟩ : Level).duration
    · exact ⟨_, levelBlock_next inp2.now s1 _ hlv hexp (by rw [hl1]; decide)⟩
    · exact ⟨_, levelBlock_stay inp2.now s1 _ hlv hexp⟩
  obtain ⟨hblock, hmain⟩ := pass_spawns_on_empty_board inp2 s1 sl hplay hstop hsl hclear
  have hsp := spawnBody_total inp2.now inp2.rands sl henough
  obtain ⟨sm, hsm, hcount, hv, -, -, hum⟩ := spawnBody_full inp2.now inp2.rands sl hsp
  obtain ⟨hlen, hnd, hrg⟩ := moleList_props sm.currentMoles sm.moleCount hcount hv
  have hpass : mainLoop inp2 s1 = buttonBlock inp2.btn sm := by
    rw [hmain]
    unfold spawnAndPress
    rw [hblock, hsm]
  obtain ⟨s2, hs2, -⟩ := buttonBlock_spec inp2.btn sm
  refine ⟨hu1, ⟨s2, by rw [hpass, hs2]⟩, sl, sm, hsl, ?_, by rw [hblock, hsm], hpass, hum, ?_,
    hnd, ?_⟩
  · have := (levelBlock_board inp2.now s1 sl hsl).2.2.2.2.2
    rw [hl1] at this
    exact this
  · rw [hlen]
    omega
  · intro l hl
    have := hrg l hl
    omega

/-- C11 amended, at the initial state: button 2 starts the game in a pass at
tick 200, and the next pass at tick 400 sends the mole line. -/
theorem moles_pop_in_pass_after_start_witness :
    (initState 0 0).gameStarted = 0 ∧ (∀ i, (initState 0 0).moleLEDs i = 0) ∧
    mainLoop exampleIdlePlayInput (initState 0 0) = .ok exampleStarted ∧
    (stopPressed (examplePlayInput 400).stop exampleStarted.lastStopTime).1 = 0 ∧
    enoughRands (examplePlayInput 400).rands = true ∧
    (mainLoop (examplePlayInput 400) exampleStarted).toOption.map (fun s2 => s2.uart) =
      some ["==== Whack-a-Mole Game ====\r\n", "Press any play button to start!\r\n",
        "Game Started! Level 1\n", "\r\nMole popped on LED(s):", " 3", " 2", "\r\n"] ∧
    exampleStarted.uart = (initState 0 0).uart ++ ["Game Started! Level 1\n"] ∧
    (∃ s2, mainLoop (examplePlayInput 400) exampleStarted = .ok s2) ∧
    ∃ sl sm, levelBlock (examplePlayInput 400).now exampleStarted = .ok (false, sl) ∧
      (sl.uart = exampleStarted.uart ∨
        sl.uart = exampleStarted.uart ++ ["\r\nStarting Level 2!\r\n"]) ∧
      spawnBlock (examplePlayInput 400).now (examplePlayInput 400).rands sl = .ok sm ∧
      mainLoop (examplePlayInput 400) exampleStarted =
        buttonBlock (examplePlayInput 400).btn sm ∧
      sm.uart = sl.uart ++ ["\r\nMole popped on LED(s):"] ++
        (moleList sm.currentMoles sm.moleCount).map (fun l => " " ++ toString (l + 1)) ++
        ["\r\n"] ∧
      (1 ≤ (moleList sm.currentMoles sm.moleCount).length ∧
        (moleList sm.currentMoles sm.moleCount).length ≤ 3) ∧
      (moleList sm.currentMoles sm.moleCount).Nodup ∧
      ∀ l ∈ moleList sm.currentMoles sm.moleCount, 1 ≤ l + 1 ∧ l + 1 ≤ 4 :=
  ⟨rfl, by decide, rfl, by decide, by decide, by decide,
    moles_pop_in_pass_after_start (initState 0 0) exampleStarted exampleIdlePlayInput
      (examplePlayInput 400) rfl (by decide) rfl (by decide) (by decide)⟩

/-! ## Effect of a spawn on the board -/

/-- C16 as stated fails: in `examplePlaying` (LEDs 1 and 2 lit, last spawn at
tick 200) the spawn step at tick 6000 fires on the interval test, selects
LED 0 alone (`rand()` values 6, 0), and LED 1, which is not selected, goes
from flag 1 and lit to flag 0 and off. -/
theorem spawn_clears_unselected_led :
    anyActive examplePlaying ≠ 0 ∧ sub32 6000 examplePlaying.lastTick ≥ 5000 ∧
    examplePlaying.moleLEDs 1 = 1 ∧ examplePlaying.ledOut 1 = GPIO_PIN_SET ∧
    (spawnBlock 6000 [6, 0] examplePlaying).toOption.map
      (fun s1 => (s1.moleCount, s1.currentMoles 0, s1.moleLEDs 1, s1.ledOut 1)) =
      some (1, 0, 0, GPIO_PIN_RESET) := by
  decide

/-- C16, amended: a spawn step (fired because the board is empty or because
`now - lastTick >= interval`) sets `moleLEDs[i] = 1` and lights LED `i` for
each selected index `i` (the entries `currentMoles[0..moleCount)`), and every
index that is not selected ends with flag 0 and LED off, whatever it was
before: `showMoleSet` clears the whole board first. -/
theorem spawn_sets_selected_clears_rest (now : Nat) (rands : List Nat) (s : State)
    (lv : Level) (hlv : levels s.currentLevel = some lv)
    (hfire : anyActive s = 0 ∨ sub32 now s.lastTick ≥ lv.interval)
    (hterm : isBlocked (spawnBlock now rands s) = false) :
    ∃ s1, spawnBlock now rands s = .ok s1 ∧
      (s1.moleCount = 1 ∨ s1.moleCount = 2 ∨ s1.moleCount = 3) ∧
      (∀ j : Fin 4,
        (∃ k : Fin 3, (k.val : Int) < s1.moleCount ∧ s1.currentMoles k = (j.val : Int)) →
        s1.moleLEDs j = 1 ∧ s1.ledOut j = GPIO_PIN_SET) ∧
      (∀ j : Fin 4,
        (¬ ∃ k : Fin 3, (k.val : Int) < s1.moleCount ∧ s1.currentMoles k = (j.val : Int)) →
        s1.moleLEDs j = 0 ∧ s1.ledOut j = GPIO_PIN_RESET) := by
  have hblock : spawnBlock now rands s = spawnBody now rands s := by
    unfold spawnBlock
    rw [hlv]
    by_cases ha : anyActive s = 0
    · rw [if_pos ha]
    · rw [if_neg ha]
      rcases hfire with h | h
      · exact absurd h ha
      · simp only [h, if_true]
  rw [hblock] at hterm ⊢
  obtain ⟨s1, hs1, hcount, -, hset, hclr, -⟩ := spawnBody_full now rands s hterm
  exact ⟨s1, hs1, hcount, hset, hclr⟩

/-- C16 amended, at `examplePlaying` with a spawn at tick 6000 that selects
LED 0. -/
theorem spawn_sets_selected_clears_rest_witness :
    levels examplePlaying.currentLevel = some ⟨5000, 60000⟩ ∧
    (anyActive examplePlaying = 0 ∨ sub32 6000 examplePlaying.lastTick ≥ 5000) ∧
    isBlocked (spawnBlock 6000 [6, 0] examplePlaying) = false ∧
    ∃ s1, spawnBlock 6000 [6, 0] examplePlaying = .ok s1 ∧
      (s1.moleCount = 1 ∨ s1.moleCount = 2 ∨ s1.moleCount = 3) ∧
      (∀ j : Fin 4,
        (∃ k : Fin 3, (k.val : Int) < s1.moleCount ∧ s1.currentMoles k = (j.val : Int)) →
        s1.moleLEDs j = 1 ∧ s1.ledOut j = GPIO_PIN_SET) ∧
      (∀ j : Fin 4,
        (¬ ∃ k : Fin 3, (k.val : Int) < s1.moleCount ∧ s1.currentMoles k = (j.val : Int)) →
        s1.moleLEDs j = 0 ∧ s1.ledOut j = GPIO_PIN_RESET) :=
  ⟨rfl, by decide, by decide,
    spawn_sets_selected_clears_rest 6000 [6, 0] examplePlaying ⟨5000, 60000⟩ rfl
      (by decide) (by decide)⟩

/-! ## Text of the hit and miss lines -/

/-- Text listing the set flags: for each set flag in ascending order a blank
and the 1-based number. -/
theorem remaining_eq (s : State) :
    remaining s = String.join
      (((List.finRange 4).filter (fun i => s.moleLEDs i ≠ 0)).map
        (fun i => " " ++ toString ((i.val : Int) + 1))) := by
  unfold remaining
  rw [finRange_four]
  by_cases h0 : s.moleLEDs 0 = 0 <;> by_cases h1 : s.moleLEDs 1 = 0 <;>
    by_cases h2 : s.moleLEDs 2 = 0 <;> by_cases h3 : s.moleLEDs 3 = 0 <;>
    simp [List.filter, h0, h1, h2, h3, String.join, String.append_assoc]

theorem append_blank_ne_empty (x y : String) : x ++ (" " ++ y) ≠ "" := by
  intro h
  have h1 := congrArg String.length h
  simp only [String.length_append] at h1
  have h2 : " ".length = 1 := rfl
  have h3 : "".length = 0 := rfl
  omega

/-- The text of the set flags is empty exactly when no flag is set. -/
theorem remaining_eq_empty_iff (s : State) : remaining s = "" ↔ ∀ i, s.moleLEDs i = 0 := by
  constructor
  · intro h i
    by_contra hi
    revert h
    unfold remaining
    rw [finRange_four]
    simp only [List.foldl]
    fin_cases i
    · simp only [Fin.zero_eta, ne_eq] at hi
      simp only [ne_eq, hi, not_false_eq_true, if_true]
      split_ifs <;> exact append_blank_ne_empty _ _
    · simp only [Fin.mk_one, ne_eq] at hi
      simp only [ne_eq, hi, not_false_eq_true, if_true]
      split_ifs <;> exact append_blank_ne_empty _ _
    · simp only [Fin.reduceFinMk, ne_eq] at hi
      simp only [ne_eq, hi, not_false_eq_true, if_true]
      split_ifs <;> exact append_blank_ne_empty _ _
    · simp only [Fin.reduceFinMk, ne_eq] at hi
      simp only [ne_eq, hi, not_false_eq_true, if_true]
      split_ifs <;> exact append_blank_ne_empty _ _
  · intro h
    unfold remaining
    rw [finRange_four]
    simp [h]

/-- C12 as stated fails: in `examplePlaying` (score 7, LEDs 1 and 2 lit) the
hit on button 1 sends "✅ Hit LED 2! Score=8 | Remaining LEDs: 3\r\n", which
is not the claimed "Hit LED 2! Score=8 | Remaining LEDs: 3\r\n": the line
starts with a check-mark character and a blank. -/
theorem hit_line_starts_with_mark :
    (getPressedButton examplePressOne examplePlaying.lastPressTime).1 = 1 ∧
    examplePlaying.moleLEDs 1 ≠ 0 ∧
    (buttonBlock examplePressOne examplePlaying).toOption.map (fun s1 => s1.uart) =
      some (examplePlaying.uart ++ ["✅ Hit LED 2! Score=8 | Remaining LEDs: 3\r\n"]) ∧
    "✅ Hit LED 2! Score=8 | Remaining LEDs: 3\r\n" ≠
      "Hit LED 2! Score=8 | Remaining LEDs: 3\r\n" := by
  decide

/-- C12, amended: for a hit on button `p` the button block sends exactly one
line, "✅ Hit LED <p+1>! Score=<s> | Remaining LEDs:<R>\r\n", where `s` is the
score after the increment and `R` is " None" when no flag remains set and
otherwise, in ascending index order, a blank and `i+1` for each `i` whose flag
is still set; for a miss on button `p` it sends exactly
"❌ Miss! Pressed <p+1>\r\n".  Both lines start with a mark character and a
blank. -/
theorem hit_and_miss_lines (s : State) (btn : BtnPoll) (p : Fin 4)
    (hp : (getPressedButton btn s.lastPressTime).1 = (p.val : Int)) :
    ∃ s1, buttonBlock btn s = .ok s1 ∧
      (s.moleLEDs p ≠ 0 →
        s1.uart = s.uart ++
          ["✅ Hit LED " ++ toString ((p.val : Int) + 1) ++ "! Score=" ++
            toString (s.score + 1) ++ " | Remaining LEDs:" ++
            (if ∀ i, s1.moleLEDs i = 0 then " None"
             else String.join (((List.finRange 4).filter (fun i => s1.moleLEDs i ≠ 0)).map
               (fun i => " " ++ toString ((i.val : Int) + 1)))) ++
            "\r\n"]) ∧
      (s.moleLEDs p = 0 →
        s1.uart = s.uart ++ ["❌ Miss! Pressed " ++ toString ((p.val : Int) + 1) ++ "\r\n"]) := by
  have hne : (getPressedButton btn s.lastPressTime).1 ≠ -1 := by rw [hp]; omega
  unfold buttonBlock
  rw [if_pos hne, hp]
  unfold pressedBody
  rw [index4_val]
  refine ⟨_, rfl, ?_, ?_⟩
  · intro hhit
    simp only [hhit, ne_eq, not_false_eq_true, if_true]
    have key : ∀ h : State,
        (if remaining h ≠ "" then remaining h else " None") =
          (if ∀ i, h.moleLEDs i = 0 then " None"
           else String.join (((List.finRange 4).filter (fun i => h.moleLEDs i ≠ 0)).map
             (fun i => " " ++ toString ((i.val : Int) + 1)))) := by
      intro h
      by_cases hall : ∀ i, h.moleLEDs i = 0
      · rw [if_pos hall, if_neg (by simpa using (remaining_eq_empty_iff h).2 hall)]
      · rw [if_neg hall, if_pos (fun hc => hall ((remaining_eq_empty_iff h).1 hc)),
          remaining_eq]
    simp only [apply_ite State.uart, apply_ite State.moleLEDs, uartPrint, ite_self, key]
  · intro hmiss
    simp only [hmiss, ne_eq, not_true_eq_false, if_false]
    split_ifs <;> simp [uartPrint]

/-- C12 amended, at `examplePlaying` with button 1 pressed at tick 305. -/
theorem hit_and_miss_lines_witness :
    (getPressedButton examplePressOne examplePlaying.lastPressTime).1 =
      ((1 : Fin 4).val : Int) ∧
    ∃ s1, buttonBlock examplePressOne examplePlaying = .ok s1 ∧
      (examplePlaying.moleLEDs 1 ≠ 0 →
        s1.uart = examplePlaying.uart ++
          ["✅ Hit LED " ++ toString (((1 : Fin 4).val : Int) + 1) ++ "! Score=" ++
            toString (examplePlaying.score + 1) ++ " | Remaining LEDs:" ++
            (if ∀ i, s1.moleLEDs i = 0 then " None"
             else String.join (((List.finRange 4).filter (fun i => s1.moleLEDs i ≠ 0)).map
               (fun i => " " ++ toString ((i.val : Int) + 1)))) ++
            "\r\n"]) ∧
      (examplePlaying.moleLEDs 1 = 0 →
        s1.uart = examplePlaying.uart ++
          ["❌ Miss! Pressed " ++ toString (((1 : Fin 4).val : Int) + 1) ++ "\r\n"]) :=
  ⟨by decide, hit_and_miss_lines examplePlaying examplePressOne 1 (by decide)⟩

/-! ## Several buttons in one poll -/

/-- C18 as stated fails: with buttons 0 and 2 both low at tick 100 and all
timestamps 0, the poll returns 2 and sets the timestamps of button 2 and of
button 0, which is not the returned one. -/
theorem poll_stamps_two_buttons :
    (getPressedButton
        ⟨100, ![GPIO_PIN_RESET, GPIO_PIN_SET, GPIO_PIN_RESET, GPIO_PIN_SET]⟩ (fun _ => 0)).1 = 2 ∧
    (getPressedButton
        ⟨100, ![GPIO_PIN_RESET, GPIO_PIN_SET, GPIO_PIN_RESET, GPIO_PIN_SET]⟩ (fun _ => 0)).2 0
      = 100 ∧
    (getPressedButton
        ⟨100, ![GPIO_PIN_RESET, GPIO_PIN_SET, GPIO_PIN_RESET, GPIO_PIN_SET]⟩ (fun _ => 0)).2 2
      = 100 := by
  decide

/-- C18, amended: one poll of `getPressedButton` accepts every button that is
low and past its debounce test, possibly several: the timestamp of each of
them becomes `now`, the timestamp of every other button is unchanged, and the
index returned (when not -1) is one of the accepted buttons, with no accepted
button above it. -/
theorem poll_stamps_every_accepted_button (bp : BtnPoll) (lastPressTime : Fin 4 → Nat) :
    (∀ i : Fin 4,
      bp.pins i = GPIO_PIN_RESET ∧ sub32 bp.now (lastPressTime i) > DEBOUNCE_MS →
      (getPressedButton bp lastPressTime).2 i = bp.now) ∧
    (∀ i : Fin 4,
      ¬ (bp.pins i = GPIO_PIN_RESET ∧ sub32 bp.now (lastPressTime i) > DEBOUNCE_MS) →
      (getPressedButton bp lastPressTime).2 i = lastPressTime i) ∧
    ((getPressedButton bp lastPressTime).1 = -1 ∨
      ∃ m : Fin 4, (getPressedButton bp lastPressTime).1 = (m.val : Int) ∧
        (bp.pins m = GPIO_PIN_RESET ∧ sub32 bp.now (lastPressTime m) > DEBOUNCE_MS) ∧
        ∀ j : Fin 4, m < j →
          ¬ (bp.pins j = GPIO_PIN_RESET ∧ sub32 bp.now (lastPressTime j) > DEBOUNCE_MS)) := by
  simp only [← btnAccepted_iff]
  rw [getPressedButton_eq]
  refine ⟨fun i hi => by simp [hi], fun i hi => by simp [hi], ?_⟩
  by_cases h3 : btnAccepted bp lastPressTime 3 = true
  · right
    refine ⟨3, by simp [h3]; rfl, h3, fun j hj => ?_⟩
    fin_cases j <;> simp at hj
  by_cases h2 : btnAccepted bp lastPressTime 2 = true
  · right
    refine ⟨2, by simp [h3, h2], h2, fun j hj => ?_⟩
    fin_cases j <;> first | exact h3 | exact absurd hj (by decide)
  by_cases h1 : btnAccepted bp lastPressTime 1 = true
  · right
    refine ⟨1, by simp [h3, h2, h1], h1, fun j hj => ?_⟩
    fin_cases j <;> first | exact h3 | exact h2 | exact absurd hj (by decide)
  by_cases h0 : btnAccepted bp lastPressTime 0 = true
  · right
    refine ⟨0, by simp [h3, h2, h1, h0], h0, fun j hj => ?_⟩
    fin_cases j <;> first | exact h3 | exact h2 | exact h1 | exact absurd hj (by decide)
  · left
    simp [h3, h2, h1, h0]

/-! ## The pass that starts the next level -/

theorem sub32_self (a : Nat) : sub32 a a = 0 := by
  unfold sub32
  omega

theorem levels_interval_pos (l : Int) (lv : Level) (h : levels l = some lv) :
    0 < lv.interval := by
  unfold levels at h
  split_ifs at h <;> simp at h <;> subst h <;> simp

/-- C14 as stated fails: `examplePlaying` (level index 0 since tick 200, score
7, LEDs 1 and 2 lit) in a pass at tick 70000 with button 1 pressed moves to the
next level and, in the same pass, polls the buttons and scores the hit: score,
`moleLEDs[1]` and `lastPressTime[1]` change.  From the empty board of
`exampleCleared` the same pass also spawns. -/
theorem next_level_pass_polls_and_spawns :
    examplePlaying.gameStarted ≠ 0 ∧ examplePlaying.currentLevel = 0 ∧
    sub32 70000 examplePlaying.levelStartTick ≥ 60000 ∧
    (stopPressed exampleLevelUpInput.stop examplePlaying.lastStopTime).1 = 0 ∧
    (examplePlaying.score, examplePlaying.moleLEDs 1, examplePlaying.lastPressTime 1) =
      (7, 1, 0) ∧
    (mainLoop exampleLevelUpInput examplePlaying).toOption.map
      (fun s1 => (s1.currentLevel, s1.score, s1.moleLEDs 1, s1.lastPressTime 1)) =
      some (1, 8, 0, 70000) ∧
    (mainLoop (examplePlayInput 70000) exampleCleared).toOption.map
      (fun s1 => (s1.currentLevel, s1.uart.drop 3)) =
      some (1, ["\r\nStarting Level 2!\r\n", "\r\nMole popped on LED(s):", " 3", " 2",
        "\r\n"]) := by
  decide

/-- C14, amended: in a Playing state with `currentLevel` 0 or 1, a pass whose
level-expiry test is true (stop not accepted) advances the level, sets
`levelStartTick = lastTick = now` and sends "\r\nStarting Level <n>!\r\n" with
`n` the new `currentLevel` plus 1; it then goes on with the rest of the pass:
the spawn check, whose interval test is false (`now - lastTick` is 0) so that
it spawns exactly when the board is empty, and the play-button poll. -/
theorem next_level_pass_goes_on (s : State) (inp : LoopInput) (lv : Level)
    (hplay : s.gameStarted ≠ 0) (hlv : levels s.currentLevel = some lv)
    (hlow : s.currentLevel = 0 ∨ s.currentLevel = 1)
    (hexp : sub32 inp.now s.levelStartTick ≥ lv.duration)
    (hstop : (stopPressed inp.stop s.lastStopTime).1 = 0) :
    ∃ sl, levelBlock inp.now s = .ok (false, sl) ∧
      sl.currentLevel = s.currentLevel + 1 ∧ sl.levelStartTick = inp.now ∧
      sl.lastTick = inp.now ∧
      sl.uart = s.uart ++
        ["\r\nStarting Level " ++ toString (sl.currentLevel + 1) ++ "!\r\n"] ∧
      sl.moleLEDs = s.moleLEDs ∧ sl.ledOut = s.ledOut ∧ sl.score = s.score ∧
      sl.lastPressTime = s.lastPressTime ∧
      spawnBlock inp.now inp.rands sl =
        (if anyActive s = 0 then spawnBody inp.now inp.rands sl else .ok sl) ∧
      mainLoop inp s =
        (match spawnBlock inp.now inp.rands sl with
         | .error e => .error e
         | .ok sm => buttonBlock inp.btn sm) := by
  have hlast : ¬ s.currentLevel + 1 ≥ 3 := by omega
  refine ⟨nextLevelBlock inp.now { s with currentLevel := s.currentLevel + 1 },
    levelBlock_next inp.now s lv hlv hexp hlast, rfl, rfl, rfl, rfl, rfl, rfl, rfl, rfl, ?_, ?_⟩
  · obtain ⟨lv1, hlv1⟩ := levels_isSome (s.currentLevel + 1) (by omega) (by omega)
    have hpos := levels_interval_pos _ lv1 hlv1
    have hany : anyActive (nextLevelBlock inp.now { s with currentLevel := s.currentLevel + 1 })
        = anyActive s := rfl
    unfold spawnBlock
    rw [hany]
    by_cases ha : anyActive s = 0
    · rw [if_pos ha, if_pos ha]
    · rw [if_neg ha, if_neg ha]
      have hl : (nextLevelBlock inp.now { s with currentLevel := s.currentLevel + 1 }).currentLevel
          = s.currentLevel + 1 := rfl
      have ht : (nextLevelBlock inp.now { s with currentLevel := s.currentLevel + 1 }).lastTick
          = inp.now := rfl
      rw [hl, hlv1, ht, sub32_self]
      simp only [ge_iff_le]
      rw [if_neg (by omega)]
  · rw [mainLoop_playing inp s hplay hstop]
    unfold playBlock
    rw [levelBlock_next inp.now s lv hlv hexp hlast]
    rfl

/-- C14 amended, at `examplePlaying` with the pass `exampleLevelUpInput`. -/
theorem next_level_pass_goes_on_witness :
    examplePlaying.gameStarted ≠ 0 ∧ levels examplePlaying.currentLevel = some ⟨5000, 60000⟩ ∧
    (examplePlaying.currentLevel = 0 ∨ examplePlaying.currentLevel = 1) ∧
    sub32 exampleLevelUpInput.now examplePlaying.levelStartTick ≥ 60000 ∧
    (stopPressed exampleLevelUpInput.stop examplePlaying.lastStopTime).1 = 0 ∧
    ∃ sl, levelBlock exampleLevelUpInput.now examplePlaying = .ok (false, sl) ∧
      sl.currentLevel = examplePlaying.currentLevel + 1 ∧
      sl.levelStartTick = exampleLevelUpInput.now ∧
      sl.lastTick = exampleLevelUpInput.now ∧
      sl.uart = examplePlaying.uart ++
        ["\r\nStarting Level " ++ toString (sl.currentLevel + 1) ++ "!\r\n"] ∧
      sl.moleLEDs = examplePlaying.moleLEDs ∧ sl.ledOut = examplePlaying.ledOut ∧
      sl.score = examplePlaying.score ∧
      sl.lastPressTime = examplePlaying.lastPressTime ∧
      spawnBlock exampleLevelUpInput.now exampleLevelUpInput.rands sl =
        (if anyActive examplePlaying = 0
          then spawnBody exampleLevelUpInput.now exampleLevelUpInput.rands sl else .ok sl) ∧
      mainLoop exampleLevelUpInput examplePlaying =
        (match spawnBlock exampleLevelUpInput.now exampleLevelUpInput.rands sl with
         | .error e => .error e
         | .ok sm => buttonBlock exampleLevelUpInput.btn sm) :=
  ⟨by decide, rfl, by decide, by decide, by decide,
    next_level_pass_goes_on examplePlaying exampleLevelUpInput ⟨5000, 60000⟩ (by decide) rfl
      (by decide) (by decide) (by decide)⟩

/-! ## The value written to `lastTick` when the board is emptied -/

/-- C15 as stated fails: from the initial state the game is started (pass at
tick 200, button 2 accepted at tick 300); the pass at tick 400 spawns one mole
on LED 1 and the press of button 1 hits it, which empties the board and writes
0 to `lastTick`.  At the later tick 401 the interval test
`now - lastTick >= interval` of level 1 is false: 401 - 0 < 5000. -/
theorem lastTick_zero_fails_interval_test :
    ((mainLoop exampleIdlePlayInput (initState 0 0)).toOption.bind
        (fun s1 => (mainLoop exampleHitInput s1).toOption)).map
      (fun s2 => (s2.gameStarted, s2.currentLevel, s2.score, s2.lastTick,
        decide (∀ i, s2.moleLEDs i = 0))) = some (1, 0, 1, 0, true) ∧
    levels 0 = some ⟨5000, 60000⟩ ∧
    ¬ (sub32 401 0 ≥ 5000) := by
  decide

theorem emptied_board_lastTick (x s1 : State)
    (h : (if allCleared x ≠ 0 then { x with lastTick := 0 } else x) = s1)
    (hclear : ∀ i, s1.moleLEDs i = 0) : s1.lastTick = 0 := by
  subst h
  by_cases hc : allCleared x ≠ 0
  · rw [if_pos hc]
  · rw [if_neg hc] at hclear
    exact absurd ((allCleared_ne_zero_iff x).2 hclear) hc

/-- An accepted press, hit or miss, after which the board is empty leaves 0
in `lastTick`. -/
theorem buttonBlock_emptied (s : State) (btn : BtnPoll) (p : Fin 4) (s1 : State)
    (hp : (getPressedButton btn s.lastPressTime).1 = (p.val : Int))
    (hs1 : buttonBlock btn s = .ok s1) (hclear : ∀ i, s1.moleLEDs i = 0) :
    s1.lastTick = 0 := by
  have hne : (getPressedButton btn s.lastPressTime).1 ≠ -1 := by rw [hp]; omega
  unfold buttonBlock at hs1
  rw [if_pos hne, hp] at hs1
  unfold pressedBody at hs1
  rw [index4_val] at hs1
  simp only [Except.ok.injEq] at hs1
  exact emptied_board_lastTick _ s1 hs1 hclear

theorem sub32_zero (a : Nat) : sub32 a 0 = a % 4294967296 := by
  unfold sub32
  omega

/-- C15, amended: when an accepted press leaves the board fully empty,
`lastTick` is set to 0.  With that value the interval test
`(now - lastTick) mod 2^32 >= interval` at a later tick `now` is true exactly
when `now mod 2^32 >= interval`, so it is not true for every later tick.  The
respawn of the next pass does not rest on it: in every state with that empty
board the spawn check of line 172 runs the body of the spawn `if` through
`!anyActive`, for every tick and every level, without the interval test. -/
theorem emptied_board_sets_lastTick_zero (s : State) (btn : BtnPoll) (p : Fin 4)
    (s1 : State) (hp : (getPressedButton btn s.lastPressTime).1 = (p.val : Int))
    (hs1 : buttonBlock btn s = .ok s1) (hclear : ∀ i, s1.moleLEDs i = 0) :
    s1.lastTick = 0 ∧
    (∀ now interval : Nat,
      sub32 now s1.lastTick ≥ interval ↔ now % 4294967296 ≥ interval) ∧
    (∀ (now : Nat) (rands : List Nat) (sl : State), sl.moleLEDs = s1.moleLEDs →
      spawnBlock now rands sl = spawnBody now rands sl) := by
  have hz := buttonBlock_emptied s btn p s1 hp hs1 hclear
  refine ⟨hz, fun now interval => by rw [hz, sub32_zero], fun now rands sl hsl => ?_⟩
  unfold spawnBlock
  rw [if_pos ((anyActive_eq_zero_iff sl).2 (fun i => by rw [hsl]; exact hclear i))]

/-- C15 amended, at `exampleOneMole`: button 1 hits the only lit LED at tick
305. -/
theorem emptied_board_sets_lastTick_zero_witness :
    (getPressedButton examplePressOne exampleOneMole.lastPressTime).1 = ((1 : Fin 4).val : Int) ∧
    buttonBlock examplePressOne exampleOneMole = .ok exampleCleared ∧
    (∀ i, exampleCleared.moleLEDs i = 0) ∧
    exampleCleared.lastTick = 0 ∧
    (∀ now interval : Nat,
      sub32 now exampleCleared.lastTick ≥ interval ↔ now % 4294967296 ≥ interval) ∧
    (∀ (now : Nat) (rands : List Nat) (sl : State), sl.moleLEDs = exampleCleared.moleLEDs →
      spawnBlock now rands sl = spawnBody now rands sl) :=
  ⟨by decide, rfl, by decide,
    emptied_board_sets_lastTick_zero exampleOneMole examplePressOne 1 exampleCleared
      (by decide) rfl (by decide)⟩

/-! ## Invariant of the reachable states -/

theorem exists_fin_four (P : Fin 4 → Prop) : (∃ j, P j) ↔ P 0 ∨ P 1 ∨ P 2 ∨ P 3 := by
  constructor
  · rintro ⟨j, hj⟩
    fin_cases j
    · exact Or.inl hj
    · exact Or.inr (Or.inl hj)
    · exact Or.inr (Or.inr (Or.inl hj))
    · exact Or.inr (Or.inr (Or.inr hj))
  · rintro (h | h | h | h) <;> exact ⟨_, h⟩

theorem activeCount_le_three_iff (s : State) :
    activeCount s ≤ 3 ↔ ∃ j, s.moleLEDs j = 0 := by
  rw [exists_fin_four]
  unfold activeCount
  rw [finRange_four]
  by_cases h0 : s.moleLEDs 0 = 0 <;> by_cases h1 : s.moleLEDs 1 = 0 <;>
    by_cases h2 : s.moleLEDs 2 = 0 <;> by_cases h3 : s.moleLEDs 3 = 0 <;>
    simp [List.filter, h0, h1, h2, h3]

theorem one_le_activeCount_iff (s : State) :
    1 ≤ activeCount s ↔ ∃ j, s.moleLEDs j ≠ 0 := by
  rw [exists_fin_four]
  unfold activeCount
  rw [finRange_four]
  by_cases h0 : s.moleLEDs 0 = 0 <;> by_cases h1 : s.moleLEDs 1 = 0 <;>
    by_cases h2 : s.moleLEDs 2 = 0 <;> by_cases h3 : s.moleLEDs 3 = 0 <;>
    simp [List.filter, h0, h1, h2, h3]

/-- Three entries cannot name all four LEDs. -/
theorem exists_unselected (cm : Fin 3 → Int) (n : Int) :
    ∃ j : Fin 4, ¬ ∃ k : Fin 3, (k.val : Int) < n ∧ cm k = (j.val : Int) := by
  by_contra hc
  push_neg at hc
  choose f hf using hc
  have hinj : Function.Injective f := by
    intro a b hab
    have ha := (hf a).2
    have hb := (hf b).2
    rw [hab] at ha
    apply Fin.ext
    have : (a.val : Int) = (b.val : Int) := by rw [← ha, ← hb]
    omega
  have := Fintype.card_le_of_injective f hinj
  simp at this

theorem isBlocked_true {α : Type} (x : Except Fault α) (h : isBlocked x = true) :
    x = .error .blocked := by
  cases x with
  | error e =>
    cases e with
    | outOfBounds => simp [isBlocked] at h
    | blocked => rfl
  | ok a => simp [isBlocked] at h

/-- The button block on the board: flags are only cleared; without a hit the
board, the score and `lastTick` of a non-empty board are left. -/
theorem buttonBlock_board (btn : BtnPoll) (s : State) :
    ∃ s1, buttonBlock btn s = .ok s1 ∧
      (∀ i, s1.moleLEDs i = s.moleLEDs i ∨ s1.moleLEDs i = 0) ∧
      (s1.score = s.score ∨ s1.score = s.score + 1) ∧
      (((getPressedButton btn s.lastPressTime).1 = -1 ∨
          ∃ p : Fin 4, (getPressedButton btn s.lastPressTime).1 = (p.val : Int) ∧
            s.moleLEDs p = 0) →
        s1.moleLEDs = s.moleLEDs ∧ s1.score = s.score ∧
          ((∃ j, s.moleLEDs j ≠ 0) → s1.lastTick = s.lastTick)) := by
  unfold buttonBlock
  rcases getPressedButton_fst_cases btn s.lastPressTime with h | ⟨p, hp⟩
  · rw [if_neg (by simp [h])]
    exact ⟨_, rfl, fun i => Or.inl rfl, Or.inl rfl, fun _ => ⟨rfl, rfl, fun _ => rfl⟩⟩
  · have hne : (getPressedButton btn s.lastPressTime).1 ≠ -1 := by rw [hp]; omega
    rw [if_pos hne, hp]
    unfold pressedBody
    rw [index4_val]
    refine ⟨_, rfl, ?_, ?_, ?_⟩
    · intro i
      simp only [apply_ite State.moleLEDs, uartPrint, ite_self]
      by_cases hhit : s.moleLEDs p = 0
      · simp [hhit]
      · simp only [hhit, ne_eq, not_false_eq_true, if_true]
        by_cases hip : i = p
        · right; rw [hip]; simp
        · left; simp [Function.update_noteq hip]
    · simp only [apply_ite State.score, uartPrint, ite_self]
      by_cases hhit : s.moleLEDs p = 0
      · simp [hhit]
      · simp [hhit]
    · rintro (hc | ⟨q, hq, hmiss⟩)
      · exact absurd hc (by omega)
      · have hqp : q = p := by
          apply Fin.ext
          omega
        subst hqp
        simp only [hmiss, ne_eq, not_true_eq_false, if_false]
        refine ⟨?_, ?_, ?_⟩
        · simp only [apply_ite State.moleLEDs, uartPrint, ite_self]
        · simp only [apply_ite State.score, uartPrint, ite_self]
        · intro hj
          have hnc : ¬ allCleared (uartPrint
              ("❌ Miss! Pressed " ++ toString ((q.val : Int) + 1) ++ "\r\n")
              { s with lastPressTime := (getPressedButton btn s.lastPressTime).2 }) ≠ 0 := by
            rw [allCleared_ne_zero_iff]
            intro hall
            obtain ⟨j, hj⟩ := hj
            exact hj (hall j)
          rw [if_neg hnc]
          rfl

theorem isBlocked_ok {α : Type} (x : Except Fault α) (a : α) (h : x = .ok a) :
    isBlocked x = false := by
  rw [h]
  rfl

/-- After the body of the spawn `if` between one and three flags are set. -/
theorem spawnBody_board (now : Nat) (rands : List Nat) (s sm : State)
    (h : spawnBody now rands s = .ok sm) :
    (∃ j, sm.moleLEDs j = 0) ∧ (∃ j, sm.moleLEDs j ≠ 0) := by
  have hterm := isBlocked_ok _ _ h
  obtain ⟨s1, hs1, -, -, -, hclr, -⟩ := spawnBody_full now rands s hterm
  obtain ⟨s2, hs2, -, -, -, -, -, -, -, ⟨j, hj, -⟩, -⟩ := spawnBody_spec now rands s hterm
  rw [h] at hs1 hs2
  cases hs1
  cases hs2
  obtain ⟨u, hu⟩ := exists_unselected sm.currentMoles sm.moleCount
  exact ⟨⟨u, (hclr u hu).1⟩, ⟨j, by rw [hj]; decide⟩⟩

/-- After the spawn block, from a board with at most three flags set, between
one and three flags are set. -/
theorem spawnBlock_board (now : Nat) (rands : List Nat) (s sm : State)
    (h : spawnBlock now rands s = .ok sm) (hz : ∃ j, s.moleLEDs j = 0) :
    (∃ j, sm.moleLEDs j = 0) ∧ (∃ j, sm.moleLEDs j ≠ 0) := by
  unfold spawnBlock at h
  by_cases ha : anyActive s = 0
  · rw [if_pos ha] at h
    exact spawnBody_board now rands s sm h
  · rw [if_neg ha] at h
    split at h
    · simp at h
    · split_ifs at h
      · exact spawnBody_board now rands s sm h
      · simp only [Except.ok.injEq] at h
        subst h
        refine ⟨hz, ?_⟩
        by_contra hc
        push_neg at hc
        exact ha ((anyActive_eq_zero_iff s).2 hc)

/-- The ways a pass that starts with the game running returns a state. -/
theorem playing_pass_cases (s s1 : State) (inp : LoopInput) (hplay : s.gameStarted ≠ 0)
    (h : mainLoop inp s = .ok s1) :
    ((stopPressed inp.stop s.lastStopTime).1 ≠ 0 ∧
      s1 = stopBlock { s with lastStopTime := (stopPressed inp.stop s.lastStopTime).2 }) ∨
    ((stopPressed inp.stop s.lastStopTime).1 = 0 ∧
      ∃ lv, levels s.currentLevel = some lv ∧
        ((sub32 inp.now s.levelStartTick ≥ lv.duration ∧ s.currentLevel + 1 ≥ 3 ∧
            s1 = finishBlock { s with currentLevel := s.currentLevel + 1 }) ∨
          ∃ sl, levelBlock inp.now s = .ok (false, sl) ∧ spawnAndPress inp sl = .ok s1 ∧
            (∃ lv1, levels sl.currentLevel = some lv1) ∧
            sl.gameStarted = s.gameStarted ∧ sl.moleLEDs = s.moleLEDs)) := by
  by_cases hstop : (stopPressed inp.stop s.lastStopTime).1 = 0
  · right
    refine ⟨hstop, ?_⟩
    rw [mainLoop_playing inp s hplay hstop] at h
    unfold playBlock at h
    cases hl : levels s.currentLevel with
    | none =>
      unfold levelBlock at h
      rw [hl] at h
      simp at h
    | some lv =>
      refine ⟨lv, rfl, ?_⟩
      obtain ⟨hrange, -⟩ := levels_some s.currentLevel lv hl
      by_cases hexp : sub32 inp.now s.levelStartTick ≥ lv.duration
      · by_cases hlast : s.currentLevel + 1 ≥ 3
        · left
          rw [levelBlock_finish inp.now s lv hl hexp hlast] at h
          simp only [Except.ok.injEq] at h
          exact ⟨hexp, hlast, h.symm⟩
        · right
          rw [levelBlock_next inp.now s lv hl hexp hlast] at h
          exact ⟨_, levelBlock_next inp.now s lv hl hexp hlast, h,
            levels_isSome (s.currentLevel + 1) (by omega) (by omega), rfl, rfl⟩
      · right
        rw [levelBlock_stay inp.now s lv hl hexp] at h
        exact ⟨_, levelBlock_stay inp.now s lv hl hexp, h, ⟨lv, hl⟩, rfl, rfl⟩
  · left
    refine ⟨hstop, ?_⟩
    unfold mainLoop at h
    rw [if_pos ⟨hstop, hplay⟩] at h
    simp only [Except.ok.injEq] at h
    exact h.symm

/-- The pieces of `spawnAndPress`. -/
theorem spawnAndPress_ok (inp : LoopInput) (s s1 : State) (h : spawnAndPress inp s = .ok s1) :
    ∃ sm, spawnBlock inp.now inp.rands s = .ok sm ∧ buttonBlock inp.btn sm = .ok s1 := by
  unfold spawnAndPress at h
  cases hc : spawnBlock inp.now inp.rands s with
  | error e => rw [hc] at h; simp at h
  | ok sm => rw [hc] at h; exact ⟨sm, rfl, h⟩

theorem loopInvariant_init (t1 t2 : Nat) : loopInvariant (initState t1 t2) := by
  refine ⟨Or.inl rfl, fun h => absurd rfl h, fun _ => ⟨rfl, fun _ => rfl⟩, ⟨0, rfl⟩⟩

/-- A pass keeps the invariant. -/
theorem loopInvariant_step (s s1 : State) (inp : LoopInput) (hinv : loopInvariant s)
    (h : mainLoop inp s = .ok s1) : loopInvariant s1 := by
  obtain ⟨hflag, hlevel, hidleInv, hz⟩ := hinv
  by_cases hidle : s.gameStarted = 0
  · unfold mainLoop at h
    simp only [hidle, ne_eq, not_true_eq_false, and_false, if_false, if_true] at h
    unfold startBlock at h
    split at h
    · simp at h
    · simp only [Except.ok.injEq] at h
      subst h
      refine ⟨Or.inr rfl, fun _ => by simp [uartPrint], fun hc => ?_, hz⟩
      simp [uartPrint] at hc
  · rcases playing_pass_cases s s1 inp hidle h with ⟨-, hs1⟩ | ⟨-, lv, -, hcase⟩
    · subst hs1
      refine ⟨Or.inl ?_, fun hc => absurd ?_ hc, fun _ => ⟨?_, fun i => ?_⟩, ⟨0, ?_⟩⟩ <;>
        simp [stopBlock, showStartPage, uartPrint, clearLEDs_eq]
    · rcases hcase with ⟨-, -, hs1⟩ | ⟨sl, hsl, hsp, ⟨lv1, hlv1⟩, hg, hm⟩
      · subst hs1
        refine ⟨Or.inl ?_, fun hc => absurd ?_ hc, fun _ => ⟨?_, fun i => ?_⟩, ⟨0, ?_⟩⟩ <;>
          simp [finishBlock, showStartPage, uartPrint, clearLEDs_eq]
      · obtain ⟨s2, hs2, g1, g2, -⟩ := spawnAndPress_spec inp sl lv1 hlv1 (isBlocked_ok _ _ hsp)
        rw [hsp] at hs2
        cases hs2
        obtain ⟨sm, hsm, hbtn⟩ := spawnAndPress_ok inp sl s1 hsp
        obtain ⟨⟨j, hj⟩, -⟩ := spawnBlock_board inp.now inp.rands sl sm hsm (by rw [hm]; exact hz)
        obtain ⟨s3, hs3, hflags, -⟩ := buttonBlock_board inp.btn sm
        rw [hbtn] at hs3
        cases hs3
        have hgs : s1.gameStarted = s.gameStarted := by rw [g1, hg]
        obtain ⟨hr, -⟩ := levels_some sl.currentLevel lv1 hlv1
        refine ⟨by rw [hgs]; exact hflag, fun _ => by rw [g2]; omega,
          fun hc => absurd (hgs ▸ hc) hidle, ⟨j, ?_⟩⟩
        rcases hflags j with hf | hf
        · rw [hf, hj]
        · exact hf

/-- Every reachable state satisfies the invariant. -/
theorem reachable_invariant (s : State) (hr : Reachable s) : loopInvariant s := by
  induction hr with
  | init t1 t2 => exact loopInvariant_init t1 t2
  | step s s1 inp _ h ih => exact loopInvariant_step s s1 inp ih h

/-- A pass that reaches the button poll: the game runs, the stop poll was
rejected, the level block did not finish the game, and the pass is the button
block on the state left by the spawn block. -/
theorem beforePoll_some (inp : LoopInput) (s sm : State)
    (h : beforePoll inp s = .ok (some sm)) :
    s.gameStarted ≠ 0 ∧ (stopPressed inp.stop s.lastStopTime).1 = 0 ∧
      ∃ sl, levelBlock inp.now s = .ok (false, sl) ∧
        spawnBlock inp.now inp.rands sl = .ok sm ∧
        mainLoop inp s = buttonBlock inp.btn sm := by
  unfold beforePoll at h
  by_cases hplay : s.gameStarted = 0
  · simp only [hplay, ne_eq, not_true_eq_false, and_false, if_false, if_true] at h
    split at h <;> simp at h
  · by_cases hstop : (stopPressed inp.stop s.lastStopTime).1 = 0
    · refine ⟨hplay, hstop, ?_⟩
      simp only [hstop, stopPressed_zero inp.stop s.lastStopTime hstop, ne_eq,
        not_true_eq_false, false_and, if_false, hplay] at h
      cases hl : levelBlock inp.now s with
      | error e => rw [hl] at h; simp at h
      | ok r =>
        obtain ⟨fin, sl⟩ := r
        rw [hl] at h
        cases fin with
        | true => simp at h
        | false =>
          simp only at h
          cases hs : spawnBlock inp.now inp.rands sl with
          | error e => rw [hs] at h; simp at h
          | ok s2 =>
            rw [hs] at h
            simp only [Except.ok.injEq, Option.some.injEq] at h
            subst h
            refine ⟨sl, rfl, hs, ?_⟩
            rw [mainLoop_playing inp s hplay hstop]
            unfold playBlock
            rw [hl]
            simp only
            unfold spawnAndPress
            rw [hs]
    · rw [if_pos ⟨hstop, hplay⟩] at h
      simp at h

/-! ## Properties of the reachable states -/

/-- C17: in every reachable state the game flag is 0 or 1, and while it is 1
`currentLevel` is between 0 and 2 at both reads of `levels[currentLevel]`: at
the expiry test (the state at the top of the pass) and at the interval test
(the state left by a level block that does not finish the game).  No pass from
a reachable state, on any ticks, pin readings and `rand()` values, indexes an
array out of bounds. -/
theorem level_index_in_bounds (s : State) (hr : Reachable s) :
    (s.gameStarted = 0 ∨ s.gameStarted = 1) ∧
    (s.gameStarted = 1 → 0 ≤ s.currentLevel ∧ s.currentLevel ≤ 2) ∧
    (∀ (now : Nat) (sl : State), s.gameStarted = 1 → levelBlock now s = .ok (false, sl) →
      0 ≤ sl.currentLevel ∧ sl.currentLevel ≤ 2) ∧
    ∀ inp : LoopInput, mainLoop inp s ≠ .error .outOfBounds := by
  obtain ⟨hflag, hlevel, -, -⟩ := reachable_invariant s hr
  have hbound : s.gameStarted = 1 → 0 ≤ s.currentLevel ∧ s.currentLevel ≤ 2 :=
    fun h => hlevel (by rw [h]; decide)
  refine ⟨hflag, hbound, ?_, ?_⟩
  · intro now sl hg hsl
    obtain ⟨h0, h2⟩ := hbound hg
    obtain ⟨lv, hlv⟩ := levels_isSome s.currentLevel h0 h2
    by_cases hexp : sub32 now s.levelStartTick ≥ lv.duration
    · by_cases hlast : s.currentLevel + 1 ≥ 3
      · rw [levelBlock_finish now s lv hlv hexp hlast] at hsl
        simp at hsl
      · rw [levelBlock_next now s lv hlv hexp hlast] at hsl
        simp only [Except.ok.injEq, Prod.mk.injEq, true_and] at hsl
        subst hsl
        simp only [nextLevelBlock, uartPrint]
        omega
    · rw [levelBlock_stay now s lv hlv hexp] at hsl
      simp only [Except.ok.injEq, Prod.mk.injEq, true_and] at hsl
      subst hsl
      exact ⟨h0, h2⟩
  · intro inp hc
    by_cases hidle : s.gameStarted = 0
    · unfold mainLoop at hc
      simp only [hidle, ne_eq, not_true_eq_false, and_false, if_false, if_true] at hc
      unfold startBlock at hc
      split at hc <;> simp at hc
    · by_cases hstop : (stopPressed inp.stop s.lastStopTime).1 = 0
      · rw [mainLoop_playing inp s hidle hstop] at hc
        obtain ⟨h0, h2⟩ := hlevel hidle
        obtain ⟨lv, hlv⟩ := levels_isSome s.currentLevel h0 h2
        have hsp : ∀ sl lv1, levels sl.currentLevel = some lv1 →
            spawnAndPress inp sl ≠ .error .outOfBounds := by
          intro sl lv1 hlv1 hc1
          cases hb : isBlocked (spawnAndPress inp sl) with
          | false =>
            obtain ⟨s2, hs2, -⟩ := spawnAndPress_spec inp sl lv1 hlv1 hb
            rw [hs2] at hc1
            simp at hc1
          | true =>
            rw [isBlocked_true _ hb] at hc1
            simp at hc1
        unfold playBlock at hc
        by_cases hexp : sub32 inp.now s.levelStartTick ≥ lv.duration
        · by_cases hlast : s.currentLevel + 1 ≥ 3
          · rw [levelBlock_finish inp.now s lv hlv hexp hlast] at hc
            simp at hc
          · rw [levelBlock_next inp.now s lv hlv hexp hlast] at hc
            obtain ⟨lv1, hlv1⟩ := levels_isSome (s.currentLevel + 1) (by omega) (by omega)
            exact hsp _ lv1 hlv1 hc
        · rw [levelBlock_stay inp.now s lv hlv hexp] at hc
          exact hsp _ lv hlv hc
      · unfold mainLoop at hc
        rw [if_pos ⟨hstop, hidle⟩] at hc
        simp at hc

/-- C17 at a reachable Playing state: the state after the game was started
from the initial state. -/
theorem level_index_in_bounds_witness :
    Reachable exampleStarted ∧ exampleStarted.gameStarted = 1 ∧
    (exampleStarted.gameStarted = 0 ∨ exampleStarted.gameStarted = 1) ∧
    (exampleStarted.gameStarted = 1 →
      0 ≤ exampleStarted.currentLevel ∧ exampleStarted.currentLevel ≤ 2) ∧
    (∀ (now : Nat) (sl : State), exampleStarted.gameStarted = 1 →
      levelBlock now exampleStarted = .ok (false, sl) →
      0 ≤ sl.currentLevel ∧ sl.currentLevel ≤ 2) ∧
    ∀ inp : LoopInput, mainLoop inp exampleStarted ≠ .error .outOfBounds :=
  ⟨Reachable.step _ _ exampleIdlePlayInput (Reachable.init 0 0) rfl, by decide,
    level_index_in_bounds exampleStarted
      (Reachable.step _ _ exampleIdlePlayInput (Reachable.init 0 0) rfl)⟩

/-- C19: from every reachable state, whenever a pass reaches the button poll
of line 189, between 1 and 3 flags are set in the state polled.  Hence a pass
without accepted press, or whose press is a miss, leaves the board as it is
(so not empty) and does not write `lastTick`: the value 0 is written to
`lastTick` only by a pass whose press was a hit. -/
theorem poll_sees_one_to_three_moles (s : State) (hr : Reachable s) (inp : LoopInput)
    (sm : State) (hpoll : beforePoll inp s = .ok (some sm)) :
    1 ≤ activeCount sm ∧ activeCount sm ≤ 3 ∧
    mainLoop inp s = buttonBlock inp.btn sm ∧
    ∃ s2, buttonBlock inp.btn sm = .ok s2 ∧
      (((getPressedButton inp.btn sm.lastPressTime).1 = -1 ∨
          ∃ p : Fin 4, (getPressedButton inp.btn sm.lastPressTime).1 = (p.val : Int) ∧
            sm.moleLEDs p = 0) →
        s2.moleLEDs = sm.moleLEDs ∧ 1 ≤ activeCount s2 ∧ s2.score = sm.score ∧
          s2.lastTick = sm.lastTick) := by
  obtain ⟨-, -, -, hz⟩ := reachable_invariant s hr
  obtain ⟨-, -, sl, hsl, hsm, hmain⟩ := beforePoll_some inp s sm hpoll
  obtain ⟨hzero, hone⟩ := spawnBlock_board inp.now inp.rands sl sm hsm
    (by rw [(levelBlock_board inp.now s sl hsl).1]; exact hz)
  obtain ⟨s2, hs2, -, -, hnohit⟩ := buttonBlock_board inp.btn sm
  refine ⟨(one_le_activeCount_iff sm).2 hone, (activeCount_le_three_iff sm).2 hzero, hmain,
    s2, hs2, fun hno => ?_⟩
  obtain ⟨hb, hsc, hlt⟩ := hnohit hno
  refine ⟨hb, ?_, hsc, hlt hone⟩
  rw [one_le_activeCount_iff, hb]
  exact hone

/-- C19 at the pass at tick 400 from the state after the game was started. -/
theorem poll_sees_one_to_three_moles_witness :
    Reachable exampleStarted ∧
    beforePoll (examplePlayInput 400) exampleStarted = .ok (some exampleAtPoll) ∧
    activeCount exampleAtPoll = 2 ∧
    1 ≤ activeCount exampleAtPoll ∧ activeCount exampleAtPoll ≤ 3 ∧
    mainLoop (examplePlayInput 400) exampleStarted =
      buttonBlock (examplePlayInput 400).btn exampleAtPoll ∧
    ∃ s2, buttonBlock (examplePlayInput 400).btn exampleAtPoll = .ok s2 ∧
      (((getPressedButton (examplePlayInput 400).btn exampleAtPoll.lastPressTime).1 = -1 ∨
          ∃ p : Fin 4,
            (getPressedButton (examplePlayInput 400).btn exampleAtPoll.lastPressTime).1 =
              (p.val : Int) ∧
            exampleAtPoll.moleLEDs p = 0) →
        s2.moleLEDs = exampleAtPoll.moleLEDs ∧ 1 ≤ activeCount s2 ∧
          s2.score = exampleAtPoll.score ∧ s2.lastTick = exampleAtPoll.lastTick) :=
  ⟨Reachable.step _ _ exampleIdlePlayInput (Reachable.init 0 0) rfl, rfl, by decide,
    poll_sees_one_to_three_moles exampleStarted
      (Reachable.step _ _ exampleIdlePlayInput (Reachable.init 0 0) rfl)
      (examplePlayInput 400) exampleAtPoll rfl⟩

/-! ## The tick recorded at game start -/

theorem idleWait_of_tick (wait : List WaitRound) : ∀ (lpt : Fin 4 → Nat) (lst t : Nat),
    idleWaitTick wait lpt lst = some t → ∃ r, idleWait wait lpt lst = some r := by
  induction wait with
  | nil => intro lpt lst t h; simp [idleWaitTick] at h
  | cons r rs ih =>
    intro lpt lst t h
    unfold idleWaitTick at h
    unfold idleWait
    by_cases hb : (getPressedButton r.btn lpt).1 ≠ -1
    · rw [if_pos hb]
      exact ⟨_, rfl⟩
    · rw [if_neg hb] at h ⊢
      by_cases hs : (stopPressed r.stop lst).1 ≠ 0
      · rw [if_pos hs]
        exact ⟨_, rfl⟩
      · rw [if_neg hs] at h ⊢
        exact ih _ _ t h

theorem sub32_add (a b c : Nat) (h : sub32 b a + sub32 c b < 4294967296) :
    sub32 c a = sub32 b a + sub32 c b := by
  unfold sub32 at h ⊢
  omega

/-- C20 as stated fails when the tick counter passes `now` again: the pass is
at tick 100 and button 2 ends the wait at the wrapped tick 99, so that
`(t - now) mod 2^32 = 2^32 - 1 >= 60000`; the next pass, at tick 101 >= 99,
rejects the stop poll, finds `(101 - 100) mod 2^32 = 1 < 60000`, stays at
`currentLevel = 0` and spawns moles of level 1 without any
"Starting Level 2!" line. -/
theorem wrapped_wait_stays_in_level_one :
    (initState 0 0).gameStarted = 0 ∧
    idleWaitTick exampleWrappedStartInput.wait (initState 0 0).lastPressTime
        (stopPressed exampleWrappedStartInput.stop (initState 0 0).lastStopTime).2 = some 99 ∧
    sub32 99 exampleWrappedStartInput.now ≥ 60000 ∧
    99 ≤ (examplePlayInput 101).now ∧
    (mainLoop exampleWrappedStartInput (initState 0 0)).toOption.map
      (fun s1 => (s1.gameStarted, s1.levelStartTick,
        (stopPressed (examplePlayInput 101).stop s1.lastStopTime).1)) = some (1, 100, 0) ∧
    ((mainLoop exampleWrappedStartInput (initState 0 0)).toOption.bind
        (fun s1 => (mainLoop (examplePlayInput 101) s1).toOption)).map
      (fun s2 => (s2.currentLevel, s2.uart.drop 2)) =
      some (0, ["Game Started! Level 1\n", "\r\nMole popped on LED(s):", " 3", " 2",
        "\r\n"]) := by
  decide

/-- C20, amended: the ticks recorded on game start are the tick `now` sampled at the
top of the pass, before the Idle wait, not the tick `t` of the poll that ended
the wait.  When `(t - now) mod 2^32 >= 60000`, the next pass that does not
accept a stop press, at a tick at or after `t` and less than one period of the
tick counter after `now` (the time from `now` to `t` plus the time from `t` to
that tick is below `2^32`), finds the expiry test of level 1 true, sends
"\r\nStarting Level 2!\r\n" and sets `currentLevel = 1` in its level block,
before its spawn block; the start pass itself spawned nothing. -/
theorem stale_start_tick_skips_level_one (s : State) (inp inp2 : LoopInput) (t : Nat)
    (hidle : s.gameStarted = 0)
    (hwait : idleWaitTick inp.wait s.lastPressTime (stopPressed inp.stop s.lastStopTime).2 =
      some t)
    (hlate : sub32 t inp.now ≥ 60000)
    (hafter : sub32 t inp.now + sub32 inp2.now t < 4294967296) :
    ∃ s1, mainLoop inp s = .ok s1 ∧
      s1.levelStartTick = inp.now ∧ s1.lastTick = inp.now ∧ s1.currentLevel = 0 ∧
      s1.gameStarted = 1 ∧ s1.moleLEDs = s.moleLEDs ∧ s1.ledOut = s.ledOut ∧
      s1.uart = s.uart ++ ["Game Started! Level 1\n"] ∧
      sub32 inp2.now s1.levelStartTick ≥ 60000 ∧
      ((stopPressed inp2.stop s1.lastStopTime).1 = 0 →
        ∃ sl, levelBlock inp2.now s1 = .ok (false, sl) ∧ sl.currentLevel = 1 ∧
          sl.uart = s1.uart ++ ["\r\nStarting Level 2!\r\n"] ∧
          sl.moleLEDs = s.moleLEDs ∧
          mainLoop inp2 s1 = spawnAndPress inp2 sl ∧
          ∀ s2, mainLoop inp2 s1 = .ok s2 → s2.currentLevel = 1) := by
  obtain ⟨⟨e, lpt, lst⟩, hw⟩ := idleWait_of_tick inp.wait _ _ t hwait
  have hexp : sub32 inp2.now inp.now ≥ 60000 := by
    rw [sub32_add inp.now t inp2.now hafter]
    omega
  refine ⟨uartPrint "Game Started! Level 1\n"
      { s with lastStopTime := lst, lastPressTime := lpt, score := 0, gameStarted := 1,
               currentLevel := 0, levelStartTick := inp.now, lastTick := inp.now },
    ?_, rfl, rfl, rfl, rfl, rfl, rfl, rfl, hexp, ?_⟩
  · unfold mainLoop
    simp only [hidle, ne_eq, not_true_eq_false, and_false, if_false, if_true]
    unfold startBlock
    simp only [hw]
  · intro hstop
    have hlv : levels (uartPrint "Game Started! Level 1\n"
        { s with lastStopTime := lst, lastPressTime := lpt, score := 0, gameStarted := 1,
                 currentLevel := 0, levelStartTick := inp.now,
                 lastTick := inp.now }).currentLevel = some ⟨5000, 60000⟩ := rfl
    have hnext := levelBlock_next inp2.now _ _ hlv hexp (by simp [uartPrint])
    refine ⟨_, hnext, rfl, rfl, rfl, ?_, ?_⟩
    · rw [mainLoop_playing inp2 _ (by simp [uartPrint]) hstop]
      unfold playBlock
      rw [hnext]
    · intro s2 hs2
      rw [mainLoop_playing inp2 _ (by simp [uartPrint]) hstop] at hs2
      unfold playBlock at hs2
      rw [hnext] at hs2
      simp only at hs2
      obtain ⟨s3, hs3, -, g2, -⟩ := spawnAndPress_spec inp2 _ ⟨3000, 60000⟩ (by rfl)
        (isBlocked_ok _ _ hs2)
      rw [hs2] at hs3
      cases hs3
      rw [g2]
      rfl

/-- C20 at the initial state: the pass is at tick 200, button 2 ends the wait
at tick 70000, and the next pass is at tick 70001. -/
theorem stale_start_tick_skips_level_one_witness :
    (initState 0 0).gameStarted = 0 ∧
    idleWaitTick exampleLateStartInput.wait (initState 0 0).lastPressTime
        (stopPressed exampleLateStartInput.stop (initState 0 0).lastStopTime).2 = some 70000 ∧
    sub32 70000 exampleLateStartInput.now ≥ 60000 ∧
    sub32 70000 exampleLateStartInput.now + sub32 (examplePlayInput 70001).now 70000
      < 4294967296 ∧
    ((mainLoop exampleLateStartInput (initState 0 0)).toOption.bind
        (fun s1 => (mainLoop (examplePlayInput 70001) s1).toOption)).map
      (fun s2 => (s2.currentLevel, s2.uart.drop 2)) =
      some (1, ["Game Started! Level 1\n", "\r\nStarting Level 2!\r\n",
        "\r\nMole popped on LED(s):", " 3", " 2", "\r\n"]) ∧
    ∃ s1, mainLoop exampleLateStartInput (initState 0 0) = .ok s1 ∧
      s1.levelStartTick = exampleLateStartInput.now ∧
      s1.lastTick = exampleLateStartInput.now ∧ s1.currentLevel = 0 ∧
      s1.gameStarted = 1 ∧ s1.moleLEDs = (initState 0 0).moleLEDs ∧
      s1.ledOut = (initState 0 0).ledOut ∧
      s1.uart = (initState 0 0).uart ++ ["Game Started! Level 1\n"] ∧
      sub32 (examplePlayInput 70001).now s1.levelStartTick ≥ 60000 ∧
      ((stopPressed (examplePlayInput 70001).stop s1.lastStopTime).1 = 0 →
        ∃ sl, levelBlock (examplePlayInput 70001).now s1 = .ok (false, sl) ∧
          sl.currentLevel = 1 ∧
          sl.uart = s1.uart ++ ["\r\nStarting Level 2!\r\n"] ∧
          sl.moleLEDs = (initState 0 0).moleLEDs ∧
          mainLoop (examplePlayInput 70001) s1 = spawnAndPress (examplePlayInput 70001) sl ∧
          ∀ s2, mainLoop (examplePlayInput 70001) s1 = .ok s2 → s2.currentLevel = 1) :=
  ⟨rfl, by decide, by decide, by decide, by decide,
    stale_start_tick_skips_level_one (initState 0 0) exampleLateStartInput
      (examplePlayInput 70001) 70000 rfl (by decide) (by decide) (by decide)⟩

end WhackAMole
